import Mathlib

/-!
# taiko-client: header/encoding adapter, tier catalog and proposer configuration

A shallow embedding of `bindings/encoding/struct.go`, `proposer/config.go` and the generated
bindings `bindings/gen_assignment_hook.go` and `bindings/gen_taiko_l1.go`.

Conventions of the embedding:

* a Go fixed-size array `[n]T` is a length-indexed list (`Arr T n`), a slice `[]T` is a `List T`;
* a byte is a `Fin 256`; `uint16`/`uint64` values are natural numbers (the nonce conversion
  reduces modulo `2^64` explicitly);
* a nilable `*big.Int` is an `Option Int` (`none` is the nil pointer);
* a Go function that can panic returns an `Option` (`none` is the panic);
* a Go function returning `(*T, error)` returns a pair of options;
* a Go channel is the list of the values it holds, oldest first; the case a `select`
  statement chooses among several ready ones is a parameter, and a call that blocks has no
  result (`none`);
* methods of `bind.BoundContract` (`UnpackLog`, `Call`) are function parameters.
-/

namespace Taiko

/-! ## Go primitives -/

/-- A byte. -/
abbrev Byte := Fin 256

/-- Go fixed-size array `[n]T`. -/
abbrev Arr (α : Type) (n : Nat) := Mathlib.Vector α n

/-- Go `*big.Int`: `none` is the nil pointer. -/
abbrev BigInt := Option Int

/-- Go builtin `copy(dst, src)` on slices: overwrites the first `min (len dst) (len src)`
elements of `dst`; the result is the new content of `dst`. -/
def goCopy {α : Type} (dst src : List α) : List α :=
  src.take dst.length ++ dst.drop src.length

/-- Go slice expression `s[lo:hi]`. -/
def goSlice {α : Type} (s : List α) (lo hi : Nat) : List α :=
  (s.drop lo).take (hi - lo)

/-- The statement `copy(a[:], src)` for an array `a`. -/
def Arr.copyFrom {α : Type} {n : Nat} (dst : Arr α n) (src : List α) : Arr α n :=
  ⟨goCopy dst.toList src, by
    have hd : dst.toList.length = n := dst.2
    simp only [goCopy, List.length_append, List.length_take, List.length_drop, hd]
    omega⟩

/-- The zero value of `[n]byte`. -/
def zeroBytes (n : Nat) : Arr Byte n := Mathlib.Vector.replicate n 0

/-- Method `(*big.Int).Cmp`: `x == y` (here: both nil) returns 0 without touching the
operands; otherwise a nil operand is dereferenced and the call panics. -/
def BigInt.Cmp (x y : BigInt) : Option Int :=
  match x, y with
  | none, none => some 0
  | some a, some b => some (if a < b then -1 else if a = b then 0 else 1)
  | _, _ => none

/-- Value `common.Big0`. -/
def Big0 : BigInt := some 0

/-! ## go-ethereum types used by the adapter -/

/-- Type `common.Hash`. -/
abbrev Hash := Arr Byte 32

/-- Type `common.Address`. -/
abbrev Address := Arr Byte 20

/-- Type `types.Bloom`, 256 bytes. -/
abbrev Bloom := Arr Byte 256

/-- Type `types.BlockNonce`, 8 bytes. -/
abbrev BlockNonce := Arr Byte 8

/-- Constant `types.BloomByteLength`. -/
def BloomByteLength : Nat := 256

/-- Method `(*Bloom).SetBytes`: panics when `d` is longer than the bloom, otherwise
`copy(b[BloomByteLength-len(d):], d)`. -/
def Bloom.SetBytes (b : Bloom) (d : List Byte) : Option Bloom :=
  if h : BloomByteLength < d.length then none
  else some ⟨b.toList.take (BloomByteLength - d.length) ++
      goCopy (b.toList.drop (BloomByteLength - d.length)) d, by
    have hb : b.toList.length = 256 := b.2
    simp only [BloomByteLength] at h ⊢
    simp only [goCopy, List.length_append, List.length_take, List.length_drop, hb]
    omega⟩

/-- Function `types.BytesToBloom`: `var bloom Bloom; bloom.SetBytes(b); return bloom`. -/
def types_BytesToBloom (b : List Byte) : Option Bloom :=
  Bloom.SetBytes (zeroBytes 256) b

/-- Method `BlockNonce.Uint64`: `binary.BigEndian.Uint64(n[:])`. -/
def BlockNonce.Uint64 (n : BlockNonce) : Nat :=
  n.toList.foldl (fun acc b => acc * 256 + b.val) 0

/-- Function `types.EncodeNonce`: `binary.BigEndian.PutUint64(n[:], i)`, byte `k` is
`byte(i >> (8*(7-k)))`. -/
def EncodeNonce (i : Nat) : BlockNonce :=
  Mathlib.Vector.ofFn (fun k : Fin 8 => Fin.ofNat (i / 256 ^ (7 - k.val)))

/-- Type `types.Header` (the fields of go-ethereum's block header). -/
structure Header where
  ParentHash : Hash
  UncleHash : Hash
  Coinbase : Address
  Root : Hash
  TxHash : Hash
  ReceiptHash : Hash
  Bloom : Bloom
  Difficulty : BigInt
  Number : BigInt
  GasLimit : Nat
  GasUsed : Nat
  Time : Nat
  Extra : List Byte
  MixDigest : Hash
  Nonce : BlockNonce
  BaseFee : BigInt
  WithdrawalsHash : Option Hash
  BlobGasUsed : Option Nat
  ExcessBlobGas : Option Nat
  ParentBeaconRoot : Option Hash
  deriving DecidableEq

/-! ## `bindings/encoding/struct.go` -/

/-- Tier IDs defined in protocol. -/
def TierOptimisticID : Nat := 100

/-- Tier IDs defined in protocol. -/
def TierSgxID : Nat := 200

/-- Tier IDs defined in protocol. -/
def TierPseZkevmID : Nat := 300

/-- Tier IDs defined in protocol. -/
def TierSgxAndPseZkevmID : Nat := 400

/-- Tier IDs defined in protocol. -/
def TierGuardianID : Nat := 1000

/-- Variable `ProtocolTiers`. -/
def ProtocolTiers : List Nat :=
  [TierOptimisticID, TierSgxID, TierSgxAndPseZkevmID, TierGuardianID]

/-- BlockHeader represents an Ethereum block header. -/
structure BlockHeader where
  ParentHash : Arr Byte 32
  OmmersHash : Arr Byte 32
  Beneficiary : Address
  StateRoot : Arr Byte 32
  TransactionsRoot : Arr Byte 32
  ReceiptsRoot : Arr Byte 32
  LogsBloom : Arr (Arr Byte 32) 8
  Difficulty : BigInt
  Height : BigInt
  GasLimit : Nat
  GasUsed : Nat
  Timestamp : Nat
  ExtraData : List Byte
  MixHash : Arr Byte 32
  Nonce : Nat
  BaseFeePerGas : BigInt
  deriving DecidableEq

/-- BloomToBytes converts a types.Bloom to [8][32]byte slice. -/
def BloomToBytes (bloom : Bloom) : Arr (Arr Byte 32) 8 :=
  (List.finRange 8).foldl
    (fun b i => b.set i ((b.get i).copyFrom (goSlice bloom.toList (i.val * 32) ((i.val + 1) * 32))))
    (Mathlib.Vector.replicate 8 (zeroBytes 32))

/-- BytesToBloom converts a [8][32]byte slice to types.Bloom. -/
def BytesToBloom (b : Arr (Arr Byte 32) 8) : Option Bloom :=
  types_BytesToBloom ((List.finRange 8).foldl (fun bytes i => bytes ++ (b.get i).toList) [])

/-- FromGethHeader converts a GETH *types.Header to *BlockHeader. -/
def FromGethHeader (header : Header) : BlockHeader :=
  let baseFeePerGas := header.BaseFee
  let baseFeePerGas := if baseFeePerGas = none then Big0 else baseFeePerGas
  { ParentHash := header.ParentHash
    OmmersHash := header.UncleHash
    Beneficiary := header.Coinbase
    StateRoot := header.Root
    TransactionsRoot := header.TxHash
    ReceiptsRoot := header.ReceiptHash
    LogsBloom := BloomToBytes header.Bloom
    Difficulty := header.Difficulty
    Height := header.Number
    GasLimit := header.GasLimit
    GasUsed := header.GasUsed
    Timestamp := header.Time
    ExtraData := header.Extra
    MixHash := header.MixDigest
    Nonce := header.Nonce.Uint64
    BaseFeePerGas := baseFeePerGas }

/-- ToGethHeader converts a *BlockHeader to GETH *types.Header. The fields the struct
literal leaves out take their zero value. -/
def ToGethHeader (header : BlockHeader) : Option Header := do
  let baseFeePerGas := header.BaseFeePerGas
  let cmp ← baseFeePerGas.Cmp Big0
  let baseFeePerGas := if cmp = 0 then none else baseFeePerGas
  let bloom ← BytesToBloom header.LogsBloom
  some
    { ParentHash := header.ParentHash
      UncleHash := header.OmmersHash
      Coinbase := header.Beneficiary
      Root := header.StateRoot
      TxHash := header.TransactionsRoot
      ReceiptHash := header.ReceiptsRoot
      Bloom := bloom
      Difficulty := header.Difficulty
      Number := header.Height
      GasLimit := header.GasLimit
      GasUsed := header.GasUsed
      Time := header.Timestamp
      Extra := header.ExtraData
      MixDigest := header.MixHash
      Nonce := EncodeNonce header.Nonce
      BaseFee := baseFeePerGas
      WithdrawalsHash := none
      BlobGasUsed := none
      ExcessBlobGas := none
      ParentBeaconRoot := none }

/-! ## Library functions called by `proposer/config.go` -/

/-- Function `strings.Split(s, sep)` for a one-character separator, on the characters of `s`:
the substrings between the separators, `[""]` for the empty string. -/
def splitOnChar (sep : Char) : List Char → List (List Char)
  | [] => [[]]
  | c :: cs =>
    if c = sep then [] :: splitOnChar sep cs
    else
      match splitOnChar sep cs with
      | [] => [[c]]
      | w :: ws => (c :: w) :: ws

/-- Function `strings.Split(s, sep)` for a one-character separator. -/
def strings_Split (s : String) (sep : Char) : List String :=
  (splitOnChar sep s.toList).map String.mk

/-- The library functions `NewConfigFromCliContext` calls, as parameters: `crypto.ToECDSA`,
`common.Hex2Bytes`, `strings.TrimSpace`, `common.IsHexAddress`, `common.HexToAddress` and
`url.Parse`. -/
structure Lib (PrivateKey URL Err : Type) where
  crypto_ToECDSA : List Byte → Except Err PrivateKey
  common_Hex2Bytes : String → List Byte
  strings_TrimSpace : String → String
  common_IsHexAddress : String → Bool
  common_HexToAddress : String → Address
  url_Parse : String → Except Err URL

/-! ## `proposer/config.go` -/

/-- The command line flags of package `cmd/flags` that the proposer configuration reads. -/
inductive Flag
  | L1ProposerPrivKey
  | ProposeInterval
  | ProposeEmptyBlocksInterval
  | TxPoolLocals
  | ProposeBlockTxReplacementMultiplier
  | ProposeBlockTxGasTipCap
  | ProverEndpoints
  | L1WSEndpoint
  | L2HTTPEndpoint
  | TaikoL1Address
  | TaikoL2Address
  | TaikoTokenAddress
  | BackOffRetryInterval
  | RPCTimeout
  | ProposerAssignmentHookAddress
  | ExtraData
  | TxPoolLocalsOnly
  | MaxProposedTxListsPerEpoch
  | ProposeBlockTxGasLimit
  | WaitReceiptTimeout
  | OptimisticTierFee
  | SgxTierFee
  | PseZkevmTierFee
  | SgxAndPseZkevmTierFee
  | TierFeePriceBump
  | MaxTierFeePriceBumps
  | ProposeBlockIncludeParentMetaHash
  deriving DecidableEq

/-- Type `*cli.Context`: what each accessor returns for each flag. Durations are in
nanoseconds. -/
structure Context where
  IsSet : Flag → Bool
  GetString : Flag → String
  Uint64 : Flag → Nat
  Duration : Flag → Int
  GetBool : Flag → Bool

/-- Type `rpc.ClientConfig`: the fields the proposer configuration sets. -/
structure ClientConfig where
  L1Endpoint : String
  L2Endpoint : String
  TaikoL1Address : Address
  TaikoL2Address : Address
  TaikoTokenAddress : Address
  RetryInterval : Int
  Timeout : Int
  deriving DecidableEq

/-- Config contains all configurations to initialize a Taiko proposer. -/
structure Config (PrivateKey URL : Type) where
  ClientConfig : ClientConfig
  AssignmentHookAddress : Address
  L1ProposerPrivKey : PrivateKey
  ExtraData : String
  ProposeInterval : Option Int
  LocalAddresses : List Address
  LocalAddressesOnly : Bool
  ProposeEmptyBlocksInterval : Option Int
  MaxProposedTxListsPerEpoch : Nat
  ProposeBlockTxGasLimit : Nat
  ProposeBlockTxReplacementMultiplier : Nat
  WaitReceiptTimeout : Int
  ProposeBlockTxGasTipCap : BigInt
  ProverEndpoints : List URL
  OptimisticTierFee : BigInt
  SgxTierFee : BigInt
  PseZkevmTierFee : BigInt
  SgxAndPseZkevmTierFee : BigInt
  TierFeePriceBump : BigInt
  MaxTierFeePriceBumps : Nat
  IncludeParentMetaHash : Bool
  deriving DecidableEq

/-- The errors `NewConfigFromCliContext` returns, by the message that builds them. -/
inductive ConfigError (Err : Type)
  /-- Message "invalid L1 proposer private key: %w". -/
  | invalidPrivKey (err : Err)
  /-- Message "invalid account in --txpool.locals: %s". -/
  | invalidLocalAccount (trimmed : String)
  /-- Message "invalid --proposeBlockTxReplacementMultiplier value: %d". -/
  | invalidReplacementMultiplier (value : Nat)
  /-- The error of `url.Parse`, returned as it is. -/
  | urlParse (err : Err)
  deriving DecidableEq

/-- The loop of `NewConfigFromCliContext` over the entries of `--txpool.locals`: the
addresses appended so far are `localAddresses`; an entry whose trimmed text is not a hex
address ends the function with that text. -/
def localAddressesLoop {PrivateKey URL Err : Type} (lib : Lib PrivateKey URL Err) :
    List String → List Address → Except String (List Address)
  | [], localAddresses => .ok localAddresses
  | account :: rest, localAddresses =>
    let trimmed := lib.strings_TrimSpace account
    if !lib.common_IsHexAddress trimmed then .error trimmed
    else localAddressesLoop lib rest (localAddresses ++ [lib.common_HexToAddress account])

/-- The loop of `NewConfigFromCliContext` over the entries of the prover endpoints flag:
the first entry `url.Parse` rejects ends the function with its error. -/
def proverEndpointsLoop {PrivateKey URL Err : Type} (lib : Lib PrivateKey URL Err) :
    List String → List URL → Except Err (List URL)
  | [], proverEndpoints => .ok proverEndpoints
  | e :: rest, proverEndpoints =>
    match lib.url_Parse e with
    | .error err => .error err
    | .ok endpoint => proverEndpointsLoop lib rest (proverEndpoints ++ [endpoint])

/-- NewConfigFromCliContext initializes a Config instance from command line flags. -/
def NewConfigFromCliContext {PrivateKey URL Err : Type} (lib : Lib PrivateKey URL Err)
    (c : Context) : Option (Config PrivateKey URL) × Option (ConfigError Err) :=
  match lib.crypto_ToECDSA (lib.common_Hex2Bytes (c.GetString .L1ProposerPrivKey)) with
  | .error err => (none, some (.invalidPrivKey err))
  | .ok l1ProposerPrivKey =>
    let proposingInterval : Option Int :=
      if c.IsSet .ProposeInterval then some (c.Duration .ProposeInterval) else none
    let proposeEmptyBlocksInterval : Option Int :=
      if c.IsSet .ProposeEmptyBlocksInterval then some (c.Duration .ProposeEmptyBlocksInterval)
      else none
    let locals : Except String (List Address) :=
      if c.IsSet .TxPoolLocals then
        localAddressesLoop lib (strings_Split (c.GetString .TxPoolLocals) ',') []
      else .ok []
    match locals with
    | .error trimmed => (none, some (.invalidLocalAccount trimmed))
    | .ok localAddresses =>
      let proposeBlockTxReplacementMultiplier := c.Uint64 .ProposeBlockTxReplacementMultiplier
      if proposeBlockTxReplacementMultiplier = 0 then
        (none, some (.invalidReplacementMultiplier proposeBlockTxReplacementMultiplier))
      else
        let proposeBlockTxGasTipCap : BigInt :=
          if c.IsSet .ProposeBlockTxGasTipCap then
            some (Int.ofNat (c.Uint64 .ProposeBlockTxGasTipCap))
          else none
        match proverEndpointsLoop lib (strings_Split (c.GetString .ProverEndpoints) ',') [] with
        | .error err => (none, some (.urlParse err))
        | .ok proverEndpoints =>
          (some
            { ClientConfig :=
                { L1Endpoint := c.GetString .L1WSEndpoint
                  L2Endpoint := c.GetString .L2HTTPEndpoint
                  TaikoL1Address := lib.common_HexToAddress (c.GetString .TaikoL1Address)
                  TaikoL2Address := lib.common_HexToAddress (c.GetString .TaikoL2Address)
                  TaikoTokenAddress := lib.common_HexToAddress (c.GetString .TaikoTokenAddress)
                  RetryInterval := c.Duration .BackOffRetryInterval
                  Timeout := c.Duration .RPCTimeout }
              AssignmentHookAddress :=
                lib.common_HexToAddress (c.GetString .ProposerAssignmentHookAddress)
              L1ProposerPrivKey := l1ProposerPrivKey
              ExtraData := c.GetString .ExtraData
              ProposeInterval := proposingInterval
              LocalAddresses := localAddresses
              LocalAddressesOnly := c.GetBool .TxPoolLocalsOnly
              ProposeEmptyBlocksInterval := proposeEmptyBlocksInterval
              MaxProposedTxListsPerEpoch := c.Uint64 .MaxProposedTxListsPerEpoch
              ProposeBlockTxGasLimit := c.Uint64 .ProposeBlockTxGasLimit
              ProposeBlockTxReplacementMultiplier := proposeBlockTxReplacementMultiplier
              WaitReceiptTimeout := c.Duration .WaitReceiptTimeout
              ProposeBlockTxGasTipCap := proposeBlockTxGasTipCap
              ProverEndpoints := proverEndpoints
              OptimisticTierFee := some (Int.ofNat (c.Uint64 .OptimisticTierFee))
              SgxTierFee := some (Int.ofNat (c.Uint64 .SgxTierFee))
              PseZkevmTierFee := some (Int.ofNat (c.Uint64 .PseZkevmTierFee))
              SgxAndPseZkevmTierFee := some (Int.ofNat (c.Uint64 .SgxAndPseZkevmTierFee))
              TierFeePriceBump := some (Int.ofNat (c.Uint64 .TierFeePriceBump))
              MaxTierFeePriceBumps := c.Uint64 .MaxTierFeePriceBumps
              IncludeParentMetaHash := c.GetBool .ProposeBlockIncludeParentMetaHash },
            none)

/-- The per-tier base fees a `Config` carries: one entry for each of its tier-fee fields
(`OptimisticTierFee`, `SgxTierFee`, `PseZkevmTierFee`, `SgxAndPseZkevmTierFee`), keyed by the
tier ID the field is named after. -/
def Config.tierFees {PrivateKey URL : Type} (cfg : Config PrivateKey URL) :
    List (Nat × BigInt) :=
  [(TierOptimisticID, cfg.OptimisticTierFee), (TierSgxID, cfg.SgxTierFee),
    (TierPseZkevmID, cfg.PseZkevmTierFee), (TierSgxAndPseZkevmID, cfg.SgxAndPseZkevmTierFee)]

/-! ## The library functions on concrete data

Go strings are byte sequences: the functions of package `common` work on the UTF-8 bytes of
their argument. -/

/-- The bytes of a Go string. -/
def stringBytes (s : String) : List Byte :=
  (s.toList.flatMap String.utf8EncodeChar).map (fun b => Fin.ofNat b.toNat)

/-- Function `has0xPrefix` of package `common`. -/
def has0xPrefix (str : List Byte) : Bool :=
  match str with
  | c0 :: c1 :: _ => c0 = 48 && (c1 = 120 || c1 = 88)
  | _ => false

/-- Function `isHexCharacter` of package `common`: `0-9`, `a-f`, `A-F`. -/
def isHexCharacter (c : Byte) : Bool :=
  (48 ≤ c.val && c.val ≤ 57) || (97 ≤ c.val && c.val ≤ 102) || (65 ≤ c.val && c.val ≤ 70)

/-- Function `isHex` of package `common`. -/
def isHex (str : List Byte) : Bool :=
  if str.length % 2 ≠ 0 then false else str.all isHexCharacter

/-- Constant `common.AddressLength`. -/
def AddressLength : Nat := 20

/-- Function `common.IsHexAddress`. -/
def common_IsHexAddress (s : String) : Bool :=
  let s := stringBytes s
  let s := if has0xPrefix s then s.drop 2 else s
  s.length = 2 * AddressLength && isHex s

/-- The value of one hexadecimal digit (`reverseHexTable` of package `encoding/hex`). -/
def fromHexChar (c : Byte) : Option Nat :=
  if 48 ≤ c.val ∧ c.val ≤ 57 then some (c.val - 48)
  else if 97 ≤ c.val ∧ c.val ≤ 102 then some (c.val - 87)
  else if 65 ≤ c.val ∧ c.val ≤ 70 then some (c.val - 55)
  else none

/-- The bytes `hex.DecodeString` returns: those decoded before the first invalid digit or
the dangling last digit. -/
def hexDecode : List Byte → List Byte
  | p :: q :: rest =>
    match fromHexChar p, fromHexChar q with
    | some a, some b => Fin.ofNat (a * 16 + b) :: hexDecode rest
    | _, _ => []
  | _ => []

/-- Function `common.Hex2Bytes`: `h, _ := hex.DecodeString(str); return h`. -/
def common_Hex2Bytes (str : String) : List Byte := hexDecode (stringBytes str)

/-- Function `common.FromHex`. -/
def common_FromHex (s : String) : List Byte :=
  let s := stringBytes s
  let s := if has0xPrefix s then s.drop 2 else s
  let s := if s.length % 2 = 1 then 48 :: s else s
  hexDecode s

/-- Function `common.BytesToAddress`: `SetBytes` crops `b` from the left to its last 20
bytes and copies it to the end of the zero address. -/
def common_BytesToAddress (b : List Byte) : Address :=
  let b := if AddressLength < b.length then b.drop (b.length - AddressLength) else b
  let a := zeroBytes 20
  ⟨a.toList.take (AddressLength - b.length) ++
      goCopy (a.toList.drop (AddressLength - b.length)) b, by
    have ha : a.toList.length = 20 := a.2
    simp only [goCopy, AddressLength, List.length_append, List.length_take, List.length_drop, ha]
    omega⟩

/-- Function `common.HexToAddress`. -/
def common_HexToAddress (s : String) : Address := common_BytesToAddress (common_FromHex s)

/-- Function `unicode.IsSpace`. -/
def isSpace (c : Char) : Bool :=
  let r := c.toNat
  (9 ≤ r && r ≤ 13) || r = 32 || r = 0x85 || r = 0xA0 || r = 0x1680 ||
    (0x2000 ≤ r && r ≤ 0x200a) || r = 0x2028 || r = 0x2029 || r = 0x202f || r = 0x205f ||
    r = 0x3000

/-- Function `strings.TrimSpace`: drops the leading and trailing white space. -/
def strings_TrimSpace (s : String) : String :=
  String.mk ((s.toList.dropWhile isSpace).reverse.dropWhile isSpace).reverse

/-- The order of the secp256k1 group. -/
def secp256k1N : Nat := 0xFFFFFFFFFFFFFFFFFFFFFFFFFFFFFFFEBAAEDCE6AF48A03BBFD25E8CD0364141

/-- The checks of `crypto.ToECDSA` on the key bytes: 32 bytes, and the big-endian number `D`
they denote satisfies `0 < D < N`. The key is represented by `D`. -/
def crypto_ToECDSA (d : List Byte) : Except String Nat :=
  if 8 * d.length ≠ 256 then .error "invalid length, need 256 bits"
  else
    let D := d.foldl (fun acc b => acc * 256 + b.val) 0
    if secp256k1N ≤ D then .error "invalid private key, >=N"
    else if D = 0 then .error "invalid private key, zero or negative"
    else .ok D

/-- The first check of `url.Parse`: a raw URL holding an ASCII control byte is rejected. The
rest of the parser is left out: an accepted URL is represented by its text. -/
def url_Parse (rawURL : String) : Except String String :=
  if (stringBytes rawURL).any (fun b => b.val < 32 || b.val = 127) then
    .error "net/url: invalid control character in URL"
  else .ok rawURL

/-- The library functions above, packed for `NewConfigFromCliContext`. -/
def goLib : Lib Nat String String :=
  { crypto_ToECDSA := crypto_ToECDSA
    common_Hex2Bytes := common_Hex2Bytes
    strings_TrimSpace := strings_TrimSpace
    common_IsHexAddress := common_IsHexAddress
    common_HexToAddress := common_HexToAddress
    url_Parse := url_Parse }

/-! ## `bindings/encoding/struct.go`: executable data and assignment types -/

/-- Method `(*big.Int).Uint64`: the low 64 bits of the absolute value of `x`; a nil receiver
is dereferenced and the call panics. -/
def BigInt.Uint64 (x : BigInt) : Option Nat :=
  match x with
  | none => none
  | some v => some (v.natAbs % 2 ^ 64)

/-- Method `Bloom.Bytes`: the 256 bytes as a slice. -/
def Bloom.Bytes (b : Bloom) : List Byte := b.toList

/-- Type `engine.ExecutableData`: the fields `ToExecutableData` sets. -/
structure ExecutableData where
  ParentHash : Hash
  FeeRecipient : Address
  StateRoot : Hash
  ReceiptsRoot : Hash
  LogsBloom : List Byte
  Random : Hash
  Number : Nat
  GasLimit : Nat
  GasUsed : Nat
  Timestamp : Nat
  ExtraData : List Byte
  BaseFeePerGas : BigInt
  BlockHash : Hash
  TxHash : Hash
  WithdrawalsHash : Hash
  deriving DecidableEq

/-- ToExecutableData converts a GETH *types.Header to *engine.ExecutableData. The header
hash `header.Hash()` is the parameter `headerHash`; `WithdrawalsHash` keeps its zero value
unless the header has one. -/
def ToExecutableData (headerHash : Header → Hash) (header : Header) : Option ExecutableData := do
  let number ← header.Number.Uint64
  let executableData : ExecutableData :=
    { ParentHash := header.ParentHash
      FeeRecipient := header.Coinbase
      StateRoot := header.Root
      ReceiptsRoot := header.ReceiptHash
      LogsBloom := header.Bloom.Bytes
      Random := header.MixDigest
      Number := number
      GasLimit := header.GasLimit
      GasUsed := header.GasUsed
      Timestamp := header.Time
      ExtraData := header.Extra
      BaseFeePerGas := header.BaseFee
      BlockHash := headerHash header
      TxHash := header.TxHash
      WithdrawalsHash := zeroBytes 32 }
  match header.WithdrawalsHash with
  | some withdrawalsHash => some { executableData with WithdrawalsHash := withdrawalsHash }
  | none => some executableData

/-- TierFee should be same with TaikoData.TierFee. -/
structure TierFee where
  Tier : Nat
  Fee : BigInt
  deriving DecidableEq

/-- ProverAssignment should be same with TaikoData.ProverAssignment. -/
structure ProverAssignment where
  FeeToken : Address
  Expiry : Nat
  MaxBlockId : Nat
  MaxProposedIn : Nat
  MetaHash : Arr Byte 32
  ParentMetaHash : Arr Byte 32
  TierFees : List TierFee
  Signature : List Byte
  deriving DecidableEq

/-! ## `bindings/gen_assignment_hook.go`, `bindings/gen_taiko_l1.go`: generated types -/

/-- TaikoDataTierFee is an auto generated low-level Go binding around an user-defined
struct. -/
structure TaikoDataTierFee where
  Tier : Nat
  Fee : BigInt
  deriving DecidableEq

/-- AssignmentHookProverAssignment is an auto generated low-level Go binding around an
user-defined struct. -/
structure AssignmentHookProverAssignment where
  FeeToken : Address
  Expiry : Nat
  MaxBlockId : Nat
  MaxProposedIn : Nat
  MetaHash : Arr Byte 32
  ParentMetaHash : Arr Byte 32
  TierFees : List TaikoDataTierFee
  Signature : List Byte
  deriving DecidableEq

/-- TaikoDataSlotA is an auto generated low-level Go binding around an user-defined
struct. -/
structure TaikoDataSlotA where
  GenesisHeight : Nat
  GenesisTimestamp : Nat
  NumEthDeposits : Nat
  NextEthDepositToProcess : Nat
  deriving DecidableEq

/-- TaikoDataSlotB is an auto generated low-level Go binding around an user-defined
struct. -/
structure TaikoDataSlotB where
  NumBlocks : Nat
  LastVerifiedBlockId : Nat
  ProvingPaused : Bool
  deriving DecidableEq

/-- TaikoDataBlockMetadata is an auto generated low-level Go binding around an user-defined
struct. -/
structure TaikoDataBlockMetadata where
  L1Hash : Arr Byte 32
  Difficulty : Arr Byte 32
  BlobHash : Arr Byte 32
  ExtraData : Arr Byte 32
  DepositsHash : Arr Byte 32
  Coinbase : Address
  Id : Nat
  GasLimit : Nat
  Timestamp : Nat
  L1Height : Nat
  TxListByteOffset : BigInt
  TxListByteSize : BigInt
  MinTier : Nat
  BlobUsed : Bool
  ParentMetaHash : Arr Byte 32
  deriving DecidableEq

/-- TaikoDataEthDeposit is an auto generated low-level Go binding around an user-defined
struct. -/
structure TaikoDataEthDeposit where
  Recipient : Address
  Amount : BigInt
  Id : Nat
  deriving DecidableEq

/-- Type `types.Log`. -/
structure Log where
  Address : Address
  Topics : List Hash
  Data : List Byte
  BlockNumber : Nat
  TxHash : Hash
  TxIndex : Nat
  BlockHash : Hash
  Index : Nat
  Removed : Bool
  deriving DecidableEq

/-- The zero value of `types.Log`. -/
def Log.zero : Log :=
  { Address := zeroBytes 20, Topics := [], Data := [], BlockNumber := 0, TxHash := zeroBytes 32,
    TxIndex := 0, BlockHash := zeroBytes 32, Index := 0, Removed := false }

/-- AssignmentHookAdminChanged represents a AdminChanged event raised by the AssignmentHook
contract. -/
structure AssignmentHookAdminChanged where
  PreviousAdmin : Address
  NewAdmin : Address
  Raw : Log
  deriving DecidableEq

/-- TaikoL1ClientBlockProposed represents a BlockProposed event raised by the TaikoL1Client
contract. -/
structure TaikoL1ClientBlockProposed where
  BlockId : BigInt
  AssignedProver : Address
  LivenessBond : BigInt
  Meta : TaikoDataBlockMetadata
  DepositsProcessed : List TaikoDataEthDeposit
  Raw : Log
  deriving DecidableEq

/-- The expression `new(AssignmentHookAdminChanged)`: the zero value. -/
def AssignmentHookAdminChanged.new : AssignmentHookAdminChanged :=
  { PreviousAdmin := zeroBytes 20, NewAdmin := zeroBytes 20, Raw := Log.zero }

/-- The expression `new(TaikoL1ClientBlockProposed)`: the zero value. -/
def TaikoL1ClientBlockProposed.new : TaikoL1ClientBlockProposed :=
  { BlockId := none, AssignedProver := zeroBytes 20, LivenessBond := none,
    Meta :=
      { L1Hash := zeroBytes 32, Difficulty := zeroBytes 32, BlobHash := zeroBytes 32,
        ExtraData := zeroBytes 32, DepositsHash := zeroBytes 32, Coinbase := zeroBytes 20,
        Id := 0, GasLimit := 0, Timestamp := 0, L1Height := 0, TxListByteOffset := none,
        TxListByteSize := none, MinTier := 0, BlobUsed := false,
        ParentMetaHash := zeroBytes 32 },
    DepositsProcessed := [], Raw := Log.zero }

/-! ## Generated event iterators and log parsers

The bindings generator emits the same iterator type, the same `Next`, `Error` and the same
`Parse...` body for every event; they differ in the event type only. The template is
`EventIterator`, an event type enters through `EventOps`. -/

/-- Method `(*bind.BoundContract).UnpackLog(out, event, log)`, as a function: the content of
`out` after the call, and the error. -/
abbrev UnpackLog (E Err : Type) := E → String → Log → E × Option Err

/-- What the generated code does with an event type `E`: `new(E)`, the assignment
`event.Raw = log`, and the field `Raw`. -/
structure EventOps (E : Type) where
  new : E
  setRaw : E → Log → E
  Raw : E → Log
  Raw_setRaw : ∀ event log, Raw (setRaw event log) = log

/-- The operations on `AssignmentHookAdminChanged`. -/
def AssignmentHookAdminChanged.ops : EventOps AssignmentHookAdminChanged :=
  { new := AssignmentHookAdminChanged.new
    setRaw := fun event log => { event with Raw := log }
    Raw := fun event => event.Raw
    Raw_setRaw := fun _ _ => rfl }

/-- The operations on `TaikoL1ClientBlockProposed`. -/
def TaikoL1ClientBlockProposed.ops : EventOps TaikoL1ClientBlockProposed :=
  { new := TaikoL1ClientBlockProposed.new
    setRaw := fun event log => { event with Raw := log }
    Raw := fun event => event.Raw
    Raw_setRaw := fun _ _ => rfl }

/-- The iterator struct the generator emits for an event type `E`
(`AssignmentHookAdminChangedIterator`, `TaikoL1ClientBlockProposedIterator`, ...).
`logs` is the content of the log channel, oldest first. `sub` is what the channel
`sub.Err()` has ready: `none` when a receive would block, `some e` when it delivers `e`
(`some none` is a nil error, as a closed channel delivers). The field `contract` is the
parameter `contract` of `Next`. -/
structure EventIterator (E Err : Type) where
  Event : Option E
  event : String
  logs : List Log
  sub : Option (Option Err)
  done : Bool
  fail : Option Err
  deriving DecidableEq

/-- A case of the `select` statement of `Next` that waits for a log or an error. -/
inductive SelectCase
  | logs
  | subErr
  deriving DecidableEq

/-- Go `select` over the two receive cases, without `default`: a case that can proceed is
chosen; when both can, Go chooses one at random, here `pick`; when neither can, the
statement blocks (`none`). -/
def goSelect (logsReady errReady : Bool) (pick : SelectCase) : Option SelectCase :=
  match logsReady, errReady with
  | true, true => some pick
  | true, false => some .logs
  | false, true => some .subErr
  | false, false => none

/-- The body of `case log := <-it.logs:` in `Next` (the same in both `select` statements):
`log` has been received and `rest` is left in the channel. -/
def EventIterator.receiveLog {E Err : Type} (ops : EventOps E) (contract : UnpackLog E Err)
    (it : EventIterator E Err) (log : Log) (rest : List Log) : Bool × EventIterator E Err :=
  match contract ops.new it.event log with
  | (event, some err) => (false, { it with logs := rest, Event := some event, fail := some err })
  | (event, none) => (true, { it with logs := rest, Event := some (ops.setRaw event log) })

/-- Next advances the iterator to the subsequent event, returning whether there are any more
events found. In case of a retrieval or parsing error, false is returned and Error() can be
queried for the exact failure. The result is the returned boolean and the iterator after
the call; it is `none` when the call blocks in its `select`. -/
def EventIterator.Next {E Err : Type} (ops : EventOps E) (contract : UnpackLog E Err)
    (pick : SelectCase) (it : EventIterator E Err) : Option (Bool × EventIterator E Err) :=
  if it.fail.isSome then some (false, it)
  else if it.done = true then
    match it.logs with
    | log :: rest => some (EventIterator.receiveLog ops contract it log rest)
    | [] => some (false, it)
  else
    match goSelect (!it.logs.isEmpty) it.sub.isSome pick, it.logs, it.sub with
    | some .logs, log :: rest, _ => some (EventIterator.receiveLog ops contract it log rest)
    | some .subErr, _, some err =>
      EventIterator.Next ops contract pick { it with done := true, fail := err, sub := some none }
    | _, _, _ => none
termination_by (if it.done = true then 0 else 1)
decreasing_by simp_all

/-- Error returns any retrieval or parsing error occurred during filtering. -/
def EventIterator.Error {E Err : Type} (it : EventIterator E Err) : Option Err := it.fail

/-- What other goroutines do to the channels of an iterator between two calls of `Next`:
the logs they send, and what `sub.Err()` has ready afterwards. -/
structure Delivery (Err : Type) where
  logs : List Log
  sub : Option (Option Err)

/-- The iterator after a delivery to its channels. -/
def EventIterator.deliver {E Err : Type} (it : EventIterator E Err) (d : Delivery Err) :
    EventIterator E Err :=
  { it with logs := it.logs ++ d.logs, sub := d.sub }

/-- The booleans returned by successive calls of `Next`, each call after a delivery to the
channels and with its own `select` choice; the run ends at a call that blocks. -/
def EventIterator.NextCalls {E Err : Type} (ops : EventOps E) (contract : UnpackLog E Err) :
    List (Delivery Err × SelectCase) → EventIterator E Err → List Bool
  | [], _ => []
  | (d, pick) :: rest, it =>
    match EventIterator.Next ops contract pick (it.deliver d) with
    | some (more, it') => more :: EventIterator.NextCalls ops contract rest it'
    | none => []

/-- The template of the generated `Parse...` log parse operations; `eventName` is the event
name the generator writes into the call of `UnpackLog`. -/
def parseLog {E Err : Type} (ops : EventOps E) (contract : UnpackLog E Err) (eventName : String)
    (log : Log) : Option E × Option Err :=
  match contract ops.new eventName log with
  | (_, some err) => (none, some err)
  | (event, none) => (some (ops.setRaw event log), none)

/-- ParseAdminChanged is a log parse operation binding the contract event AdminChanged. -/
def AssignmentHookFilterer.ParseAdminChanged {Err : Type}
    (contract : UnpackLog AssignmentHookAdminChanged Err) (log : Log) :
    Option AssignmentHookAdminChanged × Option Err :=
  parseLog AssignmentHookAdminChanged.ops contract "AdminChanged" log

/-- ParseBlockProposed is a log parse operation binding the contract event BlockProposed. -/
def TaikoL1ClientFilterer.ParseBlockProposed {Err : Type}
    (contract : UnpackLog TaikoL1ClientBlockProposed Err) (log : Log) :
    Option TaikoL1ClientBlockProposed × Option Err :=
  parseLog TaikoL1ClientBlockProposed.ops contract "BlockProposed" log

/-- Method `Next` of `AssignmentHookAdminChangedIterator`. -/
def AssignmentHookAdminChangedIterator.Next {Err : Type}
    (contract : UnpackLog AssignmentHookAdminChanged Err) (pick : SelectCase)
    (it : EventIterator AssignmentHookAdminChanged Err) :
    Option (Bool × EventIterator AssignmentHookAdminChanged Err) :=
  EventIterator.Next AssignmentHookAdminChanged.ops contract pick it

/-- Method `Next` of `TaikoL1ClientBlockProposedIterator`. -/
def TaikoL1ClientBlockProposedIterator.Next {Err : Type}
    (contract : UnpackLog TaikoL1ClientBlockProposed Err) (pick : SelectCase)
    (it : EventIterator TaikoL1ClientBlockProposed Err) :
    Option (Bool × EventIterator TaikoL1ClientBlockProposed Err) :=
  EventIterator.Next TaikoL1ClientBlockProposed.ops contract pick it

/-! ## Generated read-only call bindings -/

/-- Type `bind.CallOpts`: the options that select the state a call reads. -/
structure CallOpts where
  Pending : Bool
  From : Address
  BlockNumber : BigInt
  deriving DecidableEq

/-- A Go value passed as `interface{}` to a contract call or returned by it in `out`; the
types the two bindings below pass and convert. -/
inductive Value
  | bytes32 (v : Arr Byte 32)
  | address (v : Address)
  | assignment (v : AssignmentHookProverAssignment)
  | slotA (v : TaikoDataSlotA)
  | slotB (v : TaikoDataSlotB)
  | uint (v : Nat)
  deriving DecidableEq

/-- Method `(*bind.BoundContract).Call(opts, &out, method, params...)`, as a function: the
content of `out` after the call, and the error. -/
abbrev ContractCall (Err : Type) := CallOpts → String → List Value → List Value × Option Err

/-- The expression `*abi.ConvertType(v, new([32]byte)).(*[32]byte)`: panics unless `v` is a
32-byte array. -/
def ConvertType_bytes32 (v : Value) : Option (Arr Byte 32) :=
  match v with
  | .bytes32 x => some x
  | _ => none

/-- The expression `*abi.ConvertType(v, new(TaikoDataSlotA)).(*TaikoDataSlotA)`. -/
def ConvertType_SlotA (v : Value) : Option TaikoDataSlotA :=
  match v with
  | .slotA x => some x
  | _ => none

/-- The expression `*abi.ConvertType(v, new(TaikoDataSlotB)).(*TaikoDataSlotB)`. -/
def ConvertType_SlotB (v : Value) : Option TaikoDataSlotB :=
  match v with
  | .slotB x => some x
  | _ => none

/-- HashAssignment is a free data retrieval call binding the contract method 0xbab50685.
The result is `none` when the function panics (`out[0]` missing or of another type). -/
def AssignmentHookCaller.HashAssignment {Err : Type} (contract : ContractCall Err)
    (opts : CallOpts) (assignment : AssignmentHookProverAssignment) (taikoL1Address : Address)
    (blobHash : Arr Byte 32) : Option (Arr Byte 32 × Option Err) :=
  match contract opts "hashAssignment"
      [.assignment assignment, .address taikoL1Address, .bytes32 blobHash] with
  | (_, some err) => some (zeroBytes 32, some err)
  | (out, none) => do
    let out0 ← ConvertType_bytes32 (← out[0]?)
    some (out0, none)

/-- The result struct of `GetStateVariables`. -/
structure StateVariables where
  A : TaikoDataSlotA
  B : TaikoDataSlotB
  deriving DecidableEq

/-- The zero value of the result struct of `GetStateVariables`. -/
def StateVariables.zero : StateVariables :=
  { A := { GenesisHeight := 0, GenesisTimestamp := 0, NumEthDeposits := 0,
           NextEthDepositToProcess := 0 }
    B := { NumBlocks := 0, LastVerifiedBlockId := 0, ProvingPaused := false } }

/-- GetStateVariables is a free data retrieval call binding the contract method 0xdde89cf5.
The result is `none` when the function panics. -/
def TaikoL1ClientCaller.GetStateVariables {Err : Type} (contract : ContractCall Err)
    (opts : CallOpts) : Option (StateVariables × Option Err) :=
  match contract opts "getStateVariables" [] with
  | (_, some err) => some (StateVariables.zero, some err)
  | (out, none) => do
    let a ← ConvertType_SlotA (← out[0]?)
    let b ← ConvertType_SlotB (← out[1]?)
    some ({ StateVariables.zero with A := a, B := b }, none)

/-! ## Conversion between the hand-written and the generated assignment types -/

/-- The field-wise conversion of an `encoding.TierFee` to a `bindings.TaikoDataTierFee`: the
fields in declaration order. -/
def TierFee.toBinding (t : TierFee) : TaikoDataTierFee := ⟨t.Tier, t.Fee⟩

/-- The field-wise conversion of a `bindings.TaikoDataTierFee` to an `encoding.TierFee`. -/
def TaikoDataTierFee.toEncoding (t : TaikoDataTierFee) : TierFee := ⟨t.Tier, t.Fee⟩

/-- The field-wise conversion of an `encoding.ProverAssignment` to a
`bindings.AssignmentHookProverAssignment`: the fields in declaration order. -/
def ProverAssignment.toBinding (a : ProverAssignment) : AssignmentHookProverAssignment :=
  ⟨a.FeeToken, a.Expiry, a.MaxBlockId, a.MaxProposedIn, a.MetaHash, a.ParentMetaHash,
    a.TierFees.map TierFee.toBinding, a.Signature⟩

/-- The field-wise conversion of a `bindings.AssignmentHookProverAssignment` to an
`encoding.ProverAssignment`. -/
def AssignmentHookProverAssignment.toEncoding (a : AssignmentHookProverAssignment) :
    ProverAssignment :=
  ⟨a.FeeToken, a.Expiry, a.MaxBlockId, a.MaxProposedIn, a.MetaHash, a.ParentMetaHash,
    a.TierFees.map TaikoDataTierFee.toEncoding, a.Signature⟩

/-! ## Tier-fee escalation and transaction replacement

The code that escalates tier fees and replaces a stalled transaction is not among the
sources; `proposer/config.go` only reads its parameters (`TierFeePriceBump`,
`MaxTierFeePriceBumps`, `ProposeBlockTxGasTipCap`, `ProposeBlockTxReplacementMultiplier`). -/

/-- Modelled from the spec: the tier-fee catalog of section 4.1, whose code is missing: a
table from tier IDs to base fees. Fees are unbounded non-negative integers, as the
`*big.Int` fee fields of `Config`. -/
abbrev TierFeeCatalog := List (Nat × Nat)

/-- Modelled from the spec: `feeFor(tier)` of section 4.1, whose code is missing; `none` is
`UnknownTierError`. -/
def feeFor (catalog : TierFeeCatalog) (tier : Nat) : Option Nat := catalog.lookup tier

/-- Modelled from the spec: `escalate(tier, bumpFraction)` of section 4.1, whose code is
missing: "returns fee + fee*bumpFraction/10000, integer arithmetic, rounding down". -/
def escalate (catalog : TierFeeCatalog) (tier bumpFraction : Nat) : Option Nat :=
  (feeFor catalog tier).map (fun fee => fee + fee * bumpFraction / 10000)

/-- Modelled from the spec: the fee table of a solicitation attempt (section 4.3, step 1),
whose code is missing: attempt 0 uses the catalog base fees, each subsequent attempt applies
`escalate` to every tier of the previous table. -/
def feeTable (catalog : TierFeeCatalog) (bumpFraction : Nat) : Nat → TierFeeCatalog
  | 0 => catalog
  | attempt + 1 =>
    (feeTable catalog bumpFraction attempt).map
      (fun entry => (entry.1, entry.2 + entry.2 * bumpFraction / 10000))

/-- Modelled from the spec: `SubmissionAttempt` of section 3, whose code is missing. The
deadline, a point in time, is left out. -/
structure SubmissionAttempt where
  nonce : Nat
  gasTipCap : Nat
  gasFeeCap : Nat
  attemptIndex : Nat
  deriving DecidableEq

/-- Modelled from the spec: state `Building` of section 4.4 on the first attempt, whose code
is missing: "assigns gasTipCap = gasTipSeed on the first attempt". -/
def firstAttempt (nonce gasTipSeed gasFeeCap : Nat) : SubmissionAttempt :=
  { nonce := nonce, gasTipCap := gasTipSeed, gasFeeCap := gasFeeCap, attemptIndex := 0 }

/-- Modelled from the spec: state `TimedOut` of section 4.4, whose code is missing: the
controller "multiplies gasTipCap (and a dependent gasFeeCap) by replacementMultiplier, keeps
the same nonce"; the attempt is superseded by a new one. -/
def replaceAttempt (replacementMultiplier : Nat) (a : SubmissionAttempt) : SubmissionAttempt :=
  { nonce := a.nonce
    gasTipCap := a.gasTipCap * replacementMultiplier
    gasFeeCap := a.gasFeeCap * replacementMultiplier
    attemptIndex := a.attemptIndex + 1 }

/-- Modelled from the spec: the attempt that is live after the given number of consecutive
timeouts (section 4.4), whose code is missing. -/
def attemptAfterTimeouts (first : SubmissionAttempt) (replacementMultiplier : Nat) :
    Nat → SubmissionAttempt
  | 0 => first
  | timeouts + 1 =>
    replaceAttempt replacementMultiplier (attemptAfterTimeouts first replacementMultiplier timeouts)

/-! ## The assignment commitment hash

The hash is computed by the assignment hook contract behind the call binding
`HashAssignment`. The code of the contract is not among the sources, which hold its binding
and its interface (method `hashAssignment`, a view function). -/

/-- Modelled from the spec: the "assignment fields excluding signature" of section 3, which
enter the commitment hash; the contract code that hashes them is missing. -/
structure CommitmentFields where
  FeeToken : Address
  Expiry : Nat
  MaxBlockId : Nat
  MaxProposedIn : Nat
  MetaHash : Arr Byte 32
  ParentMetaHash : Arr Byte 32
  TierFees : List TaikoDataTierFee
  deriving DecidableEq

/-- Modelled from the spec: the fields of an assignment that enter the commitment hash
(section 3), every field but the signature; the contract code is missing. -/
def AssignmentHookProverAssignment.commitmentFields (a : AssignmentHookProverAssignment) :
    CommitmentFields :=
  { FeeToken := a.FeeToken, Expiry := a.Expiry, MaxBlockId := a.MaxBlockId,
    MaxProposedIn := a.MaxProposedIn, MetaHash := a.MetaHash,
    ParentMetaHash := a.ParentMetaHash, TierFees := a.TierFees }

/-- Modelled from the spec: `buildHash(assignment, rollupAddress, blobHash)` of section 4.2,
whose code, the contract method `hashAssignment`, is missing: "hash =
Keccak256(canonicalEncode(assignment fields excluding signature, taikoL1Address,
blobHash))". The hash function and the encoding are parameters. -/
def buildHash (Keccak256 : List Byte → Arr Byte 32)
    (canonicalEncode : CommitmentFields → Address → Arr Byte 32 → List Byte)
    (assignment : AssignmentHookProverAssignment) (rollupAddress : Address)
    (blobHash : Arr Byte 32) : Arr Byte 32 :=
  Keccak256 (canonicalEncode assignment.commitmentFields rollupAddress blobHash)

/-- Modelled from the spec: the errors of the RPC client of section 6, whose code is missing:
"errors are either NetworkError (retryable) or ExecutionRevertedError{reason}". -/
inductive RpcError
  | NetworkError (reason : String)
  | ExecutionRevertedError (reason : String)
  deriving DecidableEq

/-- Modelled from the spec: the RPC client of section 6 with the assignment hook contract
behind it, whose code is missing. An invocation either fails on the network
(`networkError = some reason`) or reaches the contract, which answers the method
`hashAssignment` with `buildHash` of its three arguments, whatever the call options, and
reverts on any other call. -/
def assignmentHookBackend (Keccak256 : List Byte → Arr Byte 32)
    (canonicalEncode : CommitmentFields → Address → Arr Byte 32 → List Byte)
    (networkError : Option String) : ContractCall RpcError :=
  fun _ method params =>
    match networkError with
    | some reason => ([], some (.NetworkError reason))
    | none =>
      if method = "hashAssignment" then
        match params with
        | [.assignment assignment, .address taikoL1Address, .bytes32 blobHash] =>
          ([.bytes32 (buildHash Keccak256 canonicalEncode assignment taikoL1Address blobHash)],
            none)
        | _ => ([], some (.ExecutionRevertedError "invalid arguments"))
      else ([], some (.ExecutionRevertedError "unknown method"))

/-! ## Sample values -/

/-- A header with all-zero fields and the given base fee and nonce. -/
def sampleHeader (baseFee : BigInt) (nonce : BlockNonce) : Header :=
  { ParentHash := zeroBytes 32, UncleHash := zeroBytes 32, Coinbase := zeroBytes 20,
    Root := zeroBytes 32, TxHash := zeroBytes 32, ReceiptHash := zeroBytes 32,
    Bloom := zeroBytes 256, Difficulty := some 0, Number := some 1, GasLimit := 30000000,
    GasUsed := 21000, Time := 1700000000, Extra := [], MixDigest := zeroBytes 32,
    Nonce := nonce, BaseFee := baseFee, WithdrawalsHash := none, BlobGasUsed := none,
    ExcessBlobGas := none, ParentBeaconRoot := none }

/-- A block header with all-zero byte fields and the given base fee. -/
def sampleBlockHeader (baseFee : BigInt) : BlockHeader :=
  { ParentHash := zeroBytes 32, OmmersHash := zeroBytes 32, Beneficiary := zeroBytes 20,
    StateRoot := zeroBytes 32, TransactionsRoot := zeroBytes 32, ReceiptsRoot := zeroBytes 32,
    LogsBloom := Mathlib.Vector.replicate 8 (zeroBytes 32), Difficulty := some 0,
    Height := some 1, GasLimit := 30000000, GasUsed := 21000, Timestamp := 1700000000,
    ExtraData := [], MixHash := zeroBytes 32, Nonce := 258, BaseFeePerGas := baseFee }

/-- A command line with a valid key, two local accounts, two prover endpoints and the given
replacement multiplier. -/
def sampleContext (multiplier : Nat) : Context :=
  { IsSet := fun f => decide (f = Flag.TxPoolLocals)
    GetString := fun f =>
      match f with
      | .L1ProposerPrivKey => "00000000000000000000000000000000000000000000000000000000000000a1"
      | .TxPoolLocals =>
        "0x00000000000000000000000000000000000000b1,0x00000000000000000000000000000000000000b2"
      | .ProverEndpoints => "http://a:9876,http://b:9876"
      | _ => ""
    Uint64 := fun f =>
      match f with
      | .ProposeBlockTxReplacementMultiplier => multiplier
      | .OptimisticTierFee => 11
      | .SgxTierFee => 22
      | .PseZkevmTierFee => 33
      | .SgxAndPseZkevmTierFee => 44
      | _ => 0
    Duration := fun _ => 0
    GetBool := fun _ => false }

/-- The Config that `NewConfigFromCliContext` builds from `sampleContext multiplier` for a
non-zero multiplier. -/
def sampleConfig (multiplier : Nat) : Config Nat String :=
  { ClientConfig :=
      { L1Endpoint := "", L2Endpoint := "", TaikoL1Address := zeroBytes 20,
        TaikoL2Address := zeroBytes 20, TaikoTokenAddress := zeroBytes 20, RetryInterval := 0,
        Timeout := 0 }
    AssignmentHookAddress := zeroBytes 20
    L1ProposerPrivKey := 161
    ExtraData := ""
    ProposeInterval := none
    LocalAddresses :=
      [common_BytesToAddress [177], common_BytesToAddress [178]]
    LocalAddressesOnly := false
    ProposeEmptyBlocksInterval := none
    MaxProposedTxListsPerEpoch := 0
    ProposeBlockTxGasLimit := 0
    ProposeBlockTxReplacementMultiplier := multiplier
    WaitReceiptTimeout := 0
    ProposeBlockTxGasTipCap := none
    ProverEndpoints := ["http://a:9876", "http://b:9876"]
    OptimisticTierFee := some 11
    SgxTierFee := some 22
    PseZkevmTierFee := some 33
    SgxAndPseZkevmTierFee := some 44
    TierFeePriceBump := some 0
    MaxTierFeePriceBumps := 0
    IncludeParentMetaHash := false }

/-- A stand-in for `UnpackLog` on AdminChanged logs: the data must be two 32-byte words,
whose last 20 bytes are the two addresses. -/
def sampleUnpackLog : UnpackLog AssignmentHookAdminChanged String :=
  fun out _ log =>
    if log.Data.length = 64 then
      ({ out with
          PreviousAdmin := common_BytesToAddress (log.Data.take 32)
          NewAdmin := common_BytesToAddress (log.Data.drop 32) }, none)
    else (out, some "abi: improperly formatted output")

/-- A log whose data is `size` bytes of value 1. -/
def sampleLog (size : Nat) : Log := { Log.zero with Data := List.replicate size 1 }

/-- An AdminChanged iterator with the given channel contents and flags, and no event yet. -/
def sampleIterator (logs : List Log) (sub : Option (Option String)) (done : Bool)
    (fail : Option String) : EventIterator AssignmentHookAdminChanged String :=
  { Event := none, event := "AdminChanged", logs := logs, sub := sub, done := done,
    fail := fail }

/-- The event `sampleUnpackLog` makes of `sampleLog 64`, with `Raw` set. -/
def sampleEvent : AssignmentHookAdminChanged :=
  { PreviousAdmin := common_BytesToAddress (List.replicate 20 1)
    NewAdmin := common_BytesToAddress (List.replicate 20 1)
    Raw := sampleLog 64 }

/-- A header as `sampleHeader`, with the given block number. -/
def sampleHeaderNumbered (number : BigInt) : Header :=
  { sampleHeader (some 7) (EncodeNonce 258) with Number := number }

/-- A command line as `sampleContext 2`, with `--txpool.locals` set or not as `isSet` says
and with the given value. -/
def sampleContextLocals (isSet : Bool) (locals : String) : Context :=
  { sampleContext 2 with
    IsSet := fun f => decide (f = Flag.TxPoolLocals) && isSet
    GetString := fun f =>
      match f with
      | .TxPoolLocals => locals
      | g => (sampleContext 2).GetString g }

/-! ## Lemmas on the byte-array conversions -/

theorem finRange_eight : List.finRange 8 = [0, 1, 2, 3, 4, 5, 6, 7] := by decide

theorem copyFrom_toList {α : Type} {n : Nat} (dst : Arr α n) (src : List α)
    (h : src.length = n) : (dst.copyFrom src).toList = src := by
  have hd : dst.toList.length = n := dst.2
  show goCopy dst.toList src = src
  unfold goCopy
  rw [hd, List.take_of_length_le (by omega), List.drop_eq_nil_of_le (by omega), List.append_nil]

theorem goSlice_length (bloom : Bloom) (i : Fin 8) :
    (goSlice bloom.toList (i.val * 32) ((i.val + 1) * 32)).length = 32 := by
  have hb : bloom.toList.length = 256 := bloom.2
  have hi := i.2
  simp only [goSlice, List.length_take, List.length_drop, hb]
  omega

theorem BloomToBytes_get (bloom : Bloom) (i : Fin 8) :
    ((BloomToBytes bloom).get i).toList = goSlice bloom.toList (i.val * 32) ((i.val + 1) * 32) := by
  unfold BloomToBytes
  rw [finRange_eight]
  simp only [List.foldl_cons, List.foldl_nil]
  fin_cases i <;>
    simp only [Mathlib.Vector.get_set_same, ne_eq, not_false_eq_true, Mathlib.Vector.get_set_of_ne, Fin.reduceEq,
      Fin.zero_eta, Fin.mk_one, Fin.reduceFinMk] <;>
    exact copyFrom_toList _ _ (goSlice_length bloom _)

theorem get_of_toList {α : Type} {n : Nat} (v : Arr α n) (j : Fin n) (l : List α)
    (hl : v.toList = l) (hj : j.val < l.length) : v.get j = l[j.val] := by
  subst hl
  rw [Mathlib.Vector.get_eq_get]
  rfl

theorem BloomToBytes_index (b : Bloom) (i : Fin 8) (j : Fin 32) (h : 32 * i.val + j.val < 256) :
    ((BloomToBytes b).get i).get j = b.get ⟨32 * i.val + j.val, h⟩ := by
  have hb : b.toList.length = 256 := b.2
  have hs := BloomToBytes_get b i
  have hj := j.2
  have hi := i.2
  rw [get_of_toList _ j _ hs (by rw [← hs]; simp), get_of_toList b ⟨32 * i.val + j.val, h⟩ _ rfl (by omega)]
  simp only [goSlice, List.getElem_take, List.getElem_drop]
  congr 1
  omega

theorem foldl_append_bytes (b : Arr (Arr Byte 32) 8) :
    (List.finRange 8).foldl (fun bytes i => bytes ++ (b.get i).toList) [] =
      (b.get 0).toList ++ (b.get 1).toList ++ (b.get 2).toList ++ (b.get 3).toList ++
      (b.get 4).toList ++ (b.get 5).toList ++ (b.get 6).toList ++ (b.get 7).toList := by
  rw [finRange_eight]
  simp only [List.foldl_cons, List.foldl_nil, List.nil_append]

theorem SetBytes_full (z : Bloom) (d : List Byte) (h : d.length = 256) :
    Bloom.SetBytes z d = some ⟨d, h⟩ := by
  have hz : z.toList.length = 256 := z.2
  unfold Bloom.SetBytes
  rw [dif_neg (by simp [BloomByteLength, h])]
  congr 1
  apply Subtype.ext
  simp only [BloomByteLength, h, Nat.sub_self, List.take_zero, List.nil_append, List.drop_zero,
    goCopy]
  rw [List.take_of_length_le (by omega), List.drop_eq_nil_of_le (by omega), List.append_nil]

theorem bytes_length (b : Arr (Arr Byte 32) 8) :
    ((List.finRange 8).foldl (fun bytes i => bytes ++ (b.get i).toList) []).length = 256 := by
  rw [foldl_append_bytes]
  simp only [List.length_append, Mathlib.Vector.toList_length]

theorem BytesToBloom_eq (b : Arr (Arr Byte 32) 8) :
    BytesToBloom b =
      some ⟨(List.finRange 8).foldl (fun bytes i => bytes ++ (b.get i).toList) [],
        bytes_length b⟩ :=
  SetBytes_full _ _ (bytes_length b)

theorem concat_slices {α : Type} (l : List α) (h : l.length = 256) :
    List.take 32 l ++ List.take 32 (List.drop 32 l) ++ List.take 32 (List.drop 64 l) ++
      List.take 32 (List.drop 96 l) ++ List.take 32 (List.drop 128 l) ++
      List.take 32 (List.drop 160 l) ++ List.take 32 (List.drop 192 l) ++
      List.take 32 (List.drop 224 l) = l := by
  rw [← List.take_add, ← List.take_add, ← List.take_add, ← List.take_add, ← List.take_add,
    ← List.take_add, ← List.take_add]
  exact List.take_of_length_le (by omega)

theorem BytesToBloom_BloomToBytes (b : Bloom) : BytesToBloom (BloomToBytes b) = some b := by
  have hb : b.toList.length = 256 := b.2
  rw [BytesToBloom_eq]
  congr 1
  apply Subtype.ext
  dsimp only
  rw [foldl_append_bytes]
  simp only [BloomToBytes_get, goSlice]
  have key := concat_slices b.toList hb
  exact key


theorem drop_seg {α : Type} (x r : List α) (m : Nat) (hx : x.length = 32) :
    List.drop (m + 32) (x ++ r) = List.drop m r := by
  rw [List.drop_append_eq_append_drop, hx, List.drop_eq_nil_of_le (by omega), List.nil_append,
    Nat.add_sub_cancel]

theorem take_seg {α : Type} (x r : List α) (hx : x.length = 32) :
    List.take 32 (x ++ r) = x := by
  rw [List.take_append_eq_append_take, hx, List.take_of_length_le (by omega)]
  simp

theorem slice_of_concat (s : Arr (Arr Byte 32) 8) (i : Fin 8) :
    goSlice ((s.get 0).toList ++ (s.get 1).toList ++ (s.get 2).toList ++ (s.get 3).toList ++
      (s.get 4).toList ++ (s.get 5).toList ++ (s.get 6).toList ++ (s.get 7).toList)
      (i.val * 32) ((i.val + 1) * 32) = (s.get i).toList := by
  have h : ∀ k : Fin 8, (s.get k).toList.length = 32 := fun k => (s.get k).2
  simp only [List.append_assoc, goSlice]
  fin_cases i
  · exact take_seg _ _ (h 0)
  · show List.take 32 (List.drop (0 + 32) _) = _
    rw [drop_seg _ _ _ (h 0)]
    exact take_seg _ _ (h 1)
  · show List.take 32 (List.drop (0 + 32 + 32) _) = _
    rw [drop_seg _ _ _ (h 0), drop_seg _ _ _ (h 1)]
    exact take_seg _ _ (h 2)
  · show List.take 32 (List.drop (0 + 32 + 32 + 32) _) = _
    rw [drop_seg _ _ _ (h 0), drop_seg _ _ _ (h 1), drop_seg _ _ _ (h 2)]
    exact take_seg _ _ (h 3)
  · show List.take 32 (List.drop (0 + 32 + 32 + 32 + 32) _) = _
    rw [drop_seg _ _ _ (h 0), drop_seg _ _ _ (h 1), drop_seg _ _ _ (h 2), drop_seg _ _ _ (h 3)]
    exact take_seg _ _ (h 4)
  · show List.take 32 (List.drop (0 + 32 + 32 + 32 + 32 + 32) _) = _
    rw [drop_seg _ _ _ (h 0), drop_seg _ _ _ (h 1), drop_seg _ _ _ (h 2), drop_seg _ _ _ (h 3),
      drop_seg _ _ _ (h 4)]
    exact take_seg _ _ (h 5)
  · show List.take 32 (List.drop (0 + 32 + 32 + 32 + 32 + 32 + 32) _) = _
    rw [drop_seg _ _ _ (h 0), drop_seg _ _ _ (h 1), drop_seg _ _ _ (h 2), drop_seg _ _ _ (h 3),
      drop_seg _ _ _ (h 4), drop_seg _ _ _ (h 5)]
    exact take_seg _ _ (h 6)
  · show List.take 32 (List.drop (0 + 32 + 32 + 32 + 32 + 32 + 32 + 32) _) = _
    rw [drop_seg _ _ _ (h 0), drop_seg _ _ _ (h 1), drop_seg _ _ _ (h 2), drop_seg _ _ _ (h 3),
      drop_seg _ _ _ (h 4), drop_seg _ _ _ (h 5), drop_seg _ _ _ (h 6)]
    simp only [List.drop_zero]
    exact List.take_of_length_le (by rw [h 7])

theorem BloomToBytes_of_BytesToBloom (s : Arr (Arr Byte 32) 8) (x : Bloom)
    (hx : BytesToBloom s = some x) : BloomToBytes x = s := by
  rw [BytesToBloom_eq] at hx
  have hx2 : x.toList = (List.finRange 8).foldl (fun bytes i => bytes ++ (s.get i).toList) [] := by
    injection hx with hx
    rw [← hx]
    rfl
  rw [foldl_append_bytes] at hx2
  apply Mathlib.Vector.ext
  intro i
  apply Subtype.ext
  show ((BloomToBytes x).get i).toList = (s.get i).toList
  rw [BloomToBytes_get, hx2]
  exact slice_of_concat s i

theorem BlockNonce_Uint64_lt (n : BlockNonce) : n.Uint64 < 2 ^ 64 := by
  obtain ⟨l, hl⟩ := n
  match l, hl with
  | [b0, b1, b2, b3, b4, b5, b6, b7], _ =>
    simp only [BlockNonce.Uint64, Mathlib.Vector.toList, List.foldl_cons, List.foldl_nil]
    omega

theorem EncodeNonce_Uint64 (n : BlockNonce) : EncodeNonce n.Uint64 = n := by
  obtain ⟨l, hl⟩ := n
  match l, hl with
  | [b0, b1, b2, b3, b4, b5, b6, b7], _ =>
    apply Subtype.ext
    show (Mathlib.Vector.ofFn _).toList = _
    rw [Mathlib.Vector.toList_ofFn]
    simp only [BlockNonce.Uint64, Mathlib.Vector.toList, List.foldl_cons, List.foldl_nil, List.ofFn_succ, List.ofFn_zero]
    have h0 := b0.2
    have h1 := b1.2
    have h2 := b2.2
    have h3 := b3.2
    have h4 := b4.2
    have h5 := b5.2
    have h6 := b6.2
    have h7 := b7.2
    simp only [List.cons.injEq, and_true]
    refine ⟨?_, ?_, ?_, ?_, ?_, ?_, ?_, ?_⟩ <;>
      (apply Fin.ext
       simp only [Fin.ofNat, Fin.val_succ, Fin.val_zero]
       norm_num
       omega)

theorem Uint64_EncodeNonce (i : Nat) : (EncodeNonce i).Uint64 = i % 2 ^ 64 := by
  unfold BlockNonce.Uint64 EncodeNonce
  rw [Mathlib.Vector.toList_ofFn]
  simp only [List.foldl_cons, List.foldl_nil, List.ofFn_succ, List.ofFn_zero, Fin.ofNat,
    Fin.val_succ, Fin.val_zero]
  norm_num
  omega

/-! ## Header conversions -/

theorem ToGethHeader_eq (bh : BlockHeader) (v : Int) (hv : bh.BaseFeePerGas = some v) :
    ToGethHeader bh = some
      { ParentHash := bh.ParentHash
        UncleHash := bh.OmmersHash
        Coinbase := bh.Beneficiary
        Root := bh.StateRoot
        TxHash := bh.TransactionsRoot
        ReceiptHash := bh.ReceiptsRoot
        Bloom := ⟨(List.finRange 8).foldl (fun bytes i => bytes ++ (bh.LogsBloom.get i).toList) [],
          bytes_length bh.LogsBloom⟩
        Difficulty := bh.Difficulty
        Number := bh.Height
        GasLimit := bh.GasLimit
        GasUsed := bh.GasUsed
        Time := bh.Timestamp
        Extra := bh.ExtraData
        MixDigest := bh.MixHash
        Nonce := EncodeNonce bh.Nonce
        BaseFee := if v = 0 then none else some v
        WithdrawalsHash := none
        BlobGasUsed := none
        ExcessBlobGas := none
        ParentBeaconRoot := none } := by
  unfold ToGethHeader
  rw [BytesToBloom_eq, hv]
  by_cases h0 : v = 0
  · subst h0
    rfl
  · rcases lt_or_gt_of_ne h0 with hlt | hgt
    · simp [BigInt.Cmp, Big0, hlt, h0]
    · have h1 : ¬ v < 0 := by omega
      simp [BigInt.Cmp, Big0, h1, h0]

/-- C1: for every BlockHeader whose BaseFeePerGas is non-nil, with value `v`, ToGethHeader
returns a header; its BaseFee is absent (nil) when `v` is 0 and is `v` otherwise. -/
theorem ToGethHeader_BaseFee (bh : BlockHeader) (v : Int) (hv : bh.BaseFeePerGas = some v) :
    ∃ h, ToGethHeader bh = some h ∧ h.BaseFee = if v = 0 then none else some v :=
  ⟨_, ToGethHeader_eq bh v hv, rfl⟩

/-- C1 at a block header whose base fee is 0: the geth header has no base fee. -/
theorem ToGethHeader_BaseFee_witness :
    (sampleBlockHeader (some 0)).BaseFeePerGas = some 0 ∧
      ∃ h, ToGethHeader (sampleBlockHeader (some 0)) = some h ∧
        h.BaseFee = if (0 : Int) = 0 then none else some 0 :=
  ⟨rfl, ToGethHeader_BaseFee (sampleBlockHeader (some 0)) 0 rfl⟩

theorem FromGethHeader_BaseFeePerGas (h : Header) :
    (FromGethHeader h).BaseFeePerGas = some (h.BaseFee.getD 0) := by
  unfold FromGethHeader
  cases hb : h.BaseFee <;> simp [Big0]

/-- C2: for every geth header `h`, the BaseFeePerGas of FromGethHeader(h) is never nil: it is
0 when h.BaseFee is nil and h.BaseFee otherwise; the other fifteen fields are copied from
the corresponding header fields, Nonce being the big-endian uint64 of the 8 nonce bytes and
LogsBloom being BloomToBytes(Bloom). -/
theorem FromGethHeader_fields (h : Header) :
    (FromGethHeader h).BaseFeePerGas ≠ none ∧
    (FromGethHeader h).BaseFeePerGas = some (h.BaseFee.getD 0) ∧
    (FromGethHeader h).ParentHash = h.ParentHash ∧
    (FromGethHeader h).OmmersHash = h.UncleHash ∧
    (FromGethHeader h).Beneficiary = h.Coinbase ∧
    (FromGethHeader h).StateRoot = h.Root ∧
    (FromGethHeader h).TransactionsRoot = h.TxHash ∧
    (FromGethHeader h).ReceiptsRoot = h.ReceiptHash ∧
    (FromGethHeader h).LogsBloom = BloomToBytes h.Bloom ∧
    (FromGethHeader h).Difficulty = h.Difficulty ∧
    (FromGethHeader h).Height = h.Number ∧
    (FromGethHeader h).GasLimit = h.GasLimit ∧
    (FromGethHeader h).GasUsed = h.GasUsed ∧
    (FromGethHeader h).Timestamp = h.Time ∧
    (FromGethHeader h).ExtraData = h.Extra ∧
    (FromGethHeader h).MixHash = h.MixDigest ∧
    (FromGethHeader h).Nonce =
      (h.Nonce.get 0).val * 256 ^ 7 + (h.Nonce.get 1).val * 256 ^ 6 +
      (h.Nonce.get 2).val * 256 ^ 5 + (h.Nonce.get 3).val * 256 ^ 4 +
      (h.Nonce.get 4).val * 256 ^ 3 + (h.Nonce.get 5).val * 256 ^ 2 +
      (h.Nonce.get 6).val * 256 + (h.Nonce.get 7).val ∧
    (FromGethHeader h).Nonce < 2 ^ 64 := by
  have hfee := FromGethHeader_BaseFeePerGas h
  refine ⟨by rw [hfee]; simp, hfee, rfl, rfl, rfl, rfl, rfl, rfl, rfl, rfl, rfl, rfl, rfl, rfl, rfl,
    rfl, ?_, BlockNonce_Uint64_lt h.Nonce⟩
  show h.Nonce.Uint64 = _
  obtain ⟨l, hl⟩ := h.Nonce
  match l, hl with
  | [b0, b1, b2, b3, b4, b5, b6, b7], _ =>
    simp only [BlockNonce.Uint64, Mathlib.Vector.toList, List.foldl_cons, List.foldl_nil]
    show _ = b0.val * 256 ^ 7 + b1.val * 256 ^ 6 + b2.val * 256 ^ 5 + b3.val * 256 ^ 4 +
      b4.val * 256 ^ 3 + b5.val * 256 ^ 2 + b6.val * 256 + b7.val
    ring

/-- C3: round trip geth -> BlockHeader -> geth. For every geth header `h` whose BaseFee is
nil or non-zero, ToGethHeader(FromGethHeader(h)) returns a header that agrees with `h` on
ParentHash, UncleHash, Coinbase, Root, TxHash, ReceiptHash, Bloom, Difficulty, Number,
GasLimit, GasUsed, Time, Extra, MixDigest, Nonce and BaseFee. -/
theorem ToGethHeader_FromGethHeader (h : Header) (hfee : h.BaseFee ≠ some 0) :
    ∃ g, ToGethHeader (FromGethHeader h) = some g ∧
      g.ParentHash = h.ParentHash ∧ g.UncleHash = h.UncleHash ∧ g.Coinbase = h.Coinbase ∧
      g.Root = h.Root ∧ g.TxHash = h.TxHash ∧ g.ReceiptHash = h.ReceiptHash ∧
      g.Bloom = h.Bloom ∧ g.Difficulty = h.Difficulty ∧ g.Number = h.Number ∧
      g.GasLimit = h.GasLimit ∧ g.GasUsed = h.GasUsed ∧ g.Time = h.Time ∧
      g.Extra = h.Extra ∧ g.MixDigest = h.MixDigest ∧ g.Nonce = h.Nonce ∧
      g.BaseFee = h.BaseFee := by
  have hv := FromGethHeader_BaseFeePerGas h
  refine ⟨_, ToGethHeader_eq _ _ hv, rfl, rfl, rfl, rfl, rfl, rfl, ?_, rfl, rfl, rfl, rfl, rfl,
    rfl, rfl, ?_, ?_⟩
  · have hb := BytesToBloom_BloomToBytes h.Bloom
    rw [BytesToBloom_eq] at hb
    exact Option.some.inj hb
  · exact EncodeNonce_Uint64 h.Nonce
  · show (if h.BaseFee.getD 0 = 0 then none else some (h.BaseFee.getD 0)) = h.BaseFee
    cases hb : h.BaseFee with
    | none => simp
    | some w =>
      have hw : w ≠ 0 := fun h0 => hfee (by rw [hb, h0])
      simp [hw]

/-- C3 at a header with base fee 7 and nonce 258. -/
theorem ToGethHeader_FromGethHeader_witness :
    (sampleHeader (some 7) (EncodeNonce 258)).BaseFee ≠ some 0 ∧
      ∃ g, ToGethHeader (FromGethHeader (sampleHeader (some 7) (EncodeNonce 258))) = some g ∧
        g.ParentHash = (sampleHeader (some 7) (EncodeNonce 258)).ParentHash ∧
        g.UncleHash = (sampleHeader (some 7) (EncodeNonce 258)).UncleHash ∧
        g.Coinbase = (sampleHeader (some 7) (EncodeNonce 258)).Coinbase ∧
        g.Root = (sampleHeader (some 7) (EncodeNonce 258)).Root ∧
        g.TxHash = (sampleHeader (some 7) (EncodeNonce 258)).TxHash ∧
        g.ReceiptHash = (sampleHeader (some 7) (EncodeNonce 258)).ReceiptHash ∧
        g.Bloom = (sampleHeader (some 7) (EncodeNonce 258)).Bloom ∧
        g.Difficulty = (sampleHeader (some 7) (EncodeNonce 258)).Difficulty ∧
        g.Number = (sampleHeader (some 7) (EncodeNonce 258)).Number ∧
        g.GasLimit = (sampleHeader (some 7) (EncodeNonce 258)).GasLimit ∧
        g.GasUsed = (sampleHeader (some 7) (EncodeNonce 258)).GasUsed ∧
        g.Time = (sampleHeader (some 7) (EncodeNonce 258)).Time ∧
        g.Extra = (sampleHeader (some 7) (EncodeNonce 258)).Extra ∧
        g.MixDigest = (sampleHeader (some 7) (EncodeNonce 258)).MixDigest ∧
        g.Nonce = (sampleHeader (some 7) (EncodeNonce 258)).Nonce ∧
        g.BaseFee = (sampleHeader (some 7) (EncodeNonce 258)).BaseFee :=
  ⟨by decide,
    ToGethHeader_FromGethHeader (sampleHeader (some 7) (EncodeNonce 258)) (by decide)⟩

/-- C4: round trip BlockHeader -> geth -> BlockHeader. For every BlockHeader `bh` whose
BaseFeePerGas is non-nil (the value 0 included) and whose Nonce is a uint64, ToGethHeader
returns a header and FromGethHeader maps it back to `bh`, equal on all sixteen fields. -/
theorem FromGethHeader_ToGethHeader (bh : BlockHeader) (hfee : bh.BaseFeePerGas ≠ none)
    (hnonce : bh.Nonce < 2 ^ 64) :
    ∃ g, ToGethHeader bh = some g ∧ FromGethHeader g = bh := by
  obtain ⟨v, hv⟩ := Option.ne_none_iff_exists'.mp hfee
  refine ⟨_, ToGethHeader_eq bh v hv, ?_⟩
  have hbloom : BloomToBytes ⟨(List.finRange 8).foldl
      (fun bytes i => bytes ++ (bh.LogsBloom.get i).toList) [], bytes_length bh.LogsBloom⟩ =
      bh.LogsBloom :=
    BloomToBytes_of_BytesToBloom _ _ (BytesToBloom_eq bh.LogsBloom)
  have hn : (EncodeNonce bh.Nonce).Uint64 = bh.Nonce := by
    rw [Uint64_EncodeNonce]
    exact Nat.mod_eq_of_lt hnonce
  have hf : (if (if v = 0 then none else some v) = none then Big0
      else (if v = 0 then none else some v)) = bh.BaseFeePerGas := by
    rw [hv]
    by_cases h0 : v = 0 <;> simp [h0, Big0]
  cases bh
  simp only [FromGethHeader, BlockHeader.mk.injEq, true_and]
  exact ⟨hbloom, hn, hf⟩

/-- C4 at a block header whose base fee is 0 and whose nonce is 258. -/
theorem FromGethHeader_ToGethHeader_witness :
    (sampleBlockHeader (some 0)).BaseFeePerGas ≠ none ∧
      (sampleBlockHeader (some 0)).Nonce < 2 ^ 64 ∧
      ∃ g, ToGethHeader (sampleBlockHeader (some 0)) = some g ∧
        FromGethHeader g = sampleBlockHeader (some 0) :=
  ⟨by decide, by decide,
    FromGethHeader_ToGethHeader (sampleBlockHeader (some 0)) (by decide) (by decide)⟩

/-- C5: BloomToBytes packs the 256-byte bloom filter as 8 consecutive 32-byte segments:
for every bloom `b`, every `i < 8` and every `j < 32`, byte `j` of segment `i` is byte
`32*i + j` of `b`. -/
theorem BloomToBytes_segments (b : Bloom) (i : Fin 8) (j : Fin 32) :
    ((BloomToBytes b).get i).get j = b.get ⟨32 * i.val + j.val, by omega⟩ :=
  BloomToBytes_index b i j _

/-! ## Tier catalog -/

/-- C6, as stated, fails: it is not the case that each of the five tier IDs occurs exactly
once in ProtocolTiers: TierPseZkevmID (300) does not occur in it. -/
theorem ProtocolTiers_not_all_five :
    ¬ (∀ t ∈ [TierOptimisticID, TierSgxID, TierPseZkevmID, TierSgxAndPseZkevmID, TierGuardianID],
      ProtocolTiers.count t = 1) := by
  decide

/-- C6, amended: ProtocolTiers lists exactly the four tier IDs Optimistic=100, Sgx=200,
SgxAndPseZkevm=400 and Guardian=1000, each exactly once; the fifth defined tier ID,
PseZkevm=300, is not listed. -/
theorem ProtocolTiers_lists_four :
    TierOptimisticID = 100 ∧ TierSgxID = 200 ∧ TierPseZkevmID = 300 ∧
    TierSgxAndPseZkevmID = 400 ∧ TierGuardianID = 1000 ∧
    (∀ t, ProtocolTiers.count t =
      if t = TierOptimisticID ∨ t = TierSgxID ∨ t = TierSgxAndPseZkevmID ∨ t = TierGuardianID
      then 1 else 0) ∧
    ProtocolTiers.count TierPseZkevmID = 0 := by
  refine ⟨rfl, rfl, rfl, rfl, rfl, ?_, by decide⟩
  intro t
  simp only [ProtocolTiers, TierOptimisticID, TierSgxID, TierSgxAndPseZkevmID, TierGuardianID,
    List.count_cons, List.count_nil]
  split_ifs <;> simp_all <;> omega

/-- C7: ProtocolTiers is strictly ascending by numeric tier ID, so it has no duplicates, and
each of its elements is one of the five defined tier IDs 100, 200, 300, 400, 1000. -/
theorem ProtocolTiers_ascending :
    List.Sorted (fun a b => a < b) ProtocolTiers ∧ ProtocolTiers.Nodup ∧
    ProtocolTiers ⊆ [100, 200, 300, 400, 1000] ∧
    ProtocolTiers ⊆
      [TierOptimisticID, TierSgxID, TierPseZkevmID, TierSgxAndPseZkevmID, TierGuardianID] := by
  refine ⟨by decide, by decide, by decide, by decide⟩

/-! ## Proposer configuration -/

theorem localAddressesLoop_valid {PrivateKey URL Err : Type} (lib : Lib PrivateKey URL Err)
    (entries : List String) (acc : List Address)
    (h : ∀ e ∈ entries, lib.common_IsHexAddress (lib.strings_TrimSpace e) = true) :
    localAddressesLoop lib entries acc = .ok (acc ++ entries.map lib.common_HexToAddress) := by
  induction entries generalizing acc with
  | nil => simp [localAddressesLoop]
  | cons e rest ih =>
    have he := h e (List.mem_cons_self e rest)
    have hrest : ∀ x ∈ rest, lib.common_IsHexAddress (lib.strings_TrimSpace x) = true :=
      fun x hx => h x (List.mem_cons_of_mem e hx)
    simp only [localAddressesLoop, he, Bool.not_true, Bool.false_eq_true, if_false]
    rw [ih _ hrest]
    simp

theorem proverEndpointsLoop_ok {PrivateKey URL Err : Type} (lib : Lib PrivateKey URL Err)
    (entries : List String) (acc out : List URL)
    (h : proverEndpointsLoop lib entries acc = .ok out) :
    ∃ parsed, out = acc ++ parsed ∧ entries.map lib.url_Parse = parsed.map Except.ok := by
  induction entries generalizing acc with
  | nil =>
    simp only [proverEndpointsLoop, Except.ok.injEq] at h
    exact ⟨[], by simp [h], rfl⟩
  | cons e rest ih =>
    simp only [proverEndpointsLoop] at h
    cases hp : lib.url_Parse e with
    | error err => rw [hp] at h; cases h
    | ok endpoint =>
      rw [hp] at h
      obtain ⟨parsed, hout, hmap⟩ := ih _ h
      exact ⟨endpoint :: parsed, by simp [hout], by simp [hp, hmap]⟩

/-- What a successful run of NewConfigFromCliContext went through: the key was accepted,
the multiplier flag is not 0, the endpoint loop ended normally, and the fields of the result
are as the struct literal sets them. -/
theorem NewConfigFromCliContext_ok {PrivateKey URL Err : Type} (lib : Lib PrivateKey URL Err)
    (c : Context) (cfg : Config PrivateKey URL)
    (h : (NewConfigFromCliContext lib c).1 = some cfg) :
    c.Uint64 .ProposeBlockTxReplacementMultiplier ≠ 0 ∧
    cfg.ProposeBlockTxReplacementMultiplier = c.Uint64 .ProposeBlockTxReplacementMultiplier ∧
    proverEndpointsLoop lib (strings_Split (c.GetString .ProverEndpoints) ',') [] =
      .ok cfg.ProverEndpoints ∧
    cfg.OptimisticTierFee = some (Int.ofNat (c.Uint64 .OptimisticTierFee)) ∧
    cfg.SgxTierFee = some (Int.ofNat (c.Uint64 .SgxTierFee)) ∧
    cfg.PseZkevmTierFee = some (Int.ofNat (c.Uint64 .PseZkevmTierFee)) ∧
    cfg.SgxAndPseZkevmTierFee = some (Int.ofNat (c.Uint64 .SgxAndPseZkevmTierFee)) := by
  unfold NewConfigFromCliContext at h
  split at h
  · cases h
  · simp only at h
    split at h
    · cases h
    · split at h
      · cases h
      · rename_i hm
        split at h
        · cases h
        · rename_i pe hpe
          simp only [Option.some.injEq] at h
          subst h
          exact ⟨hm, rfl, hpe, rfl, rfl, rfl, rfl⟩

/-- C8: a zero transaction-replacement multiplier is a configuration error. For every CLI
context with a valid proposer private key and valid --txpool.locals entries,
NewConfigFromCliContext returns no Config and the invalid-multiplier error when the
replacement-multiplier flag is 0; and every Config it returns has
ProposeBlockTxReplacementMultiplier at least 1 and equal to the flag value. -/
theorem NewConfigFromCliContext_multiplier {PrivateKey URL Err : Type}
    (lib : Lib PrivateKey URL Err) (c : Context) (key : PrivateKey)
    (hkey : lib.crypto_ToECDSA (lib.common_Hex2Bytes (c.GetString .L1ProposerPrivKey)) = .ok key)
    (hlocals : c.IsSet .TxPoolLocals = true →
      ∀ e ∈ strings_Split (c.GetString .TxPoolLocals) ',',
        lib.common_IsHexAddress (lib.strings_TrimSpace e) = true) :
    (c.Uint64 .ProposeBlockTxReplacementMultiplier = 0 →
      NewConfigFromCliContext lib c = (none, some (.invalidReplacementMultiplier 0))) ∧
    (∀ cfg, (NewConfigFromCliContext lib c).1 = some cfg →
      1 ≤ cfg.ProposeBlockTxReplacementMultiplier ∧
      cfg.ProposeBlockTxReplacementMultiplier =
        c.Uint64 .ProposeBlockTxReplacementMultiplier) := by
  constructor
  · intro hzero
    unfold NewConfigFromCliContext
    rw [hkey]
    simp only
    by_cases hset : c.IsSet .TxPoolLocals = true
    · rw [if_pos hset, localAddressesLoop_valid lib _ _ (hlocals hset)]
      simp only [hzero, if_true]
    · rw [if_neg hset]
      simp only [hzero, if_true]
  · intro cfg hcfg
    obtain ⟨hne, heq, _⟩ := NewConfigFromCliContext_ok lib c cfg hcfg
    exact ⟨by rw [heq]; omega, heq⟩

/-- C8 at a command line with a valid key, two valid local accounts and multiplier 0. -/
theorem NewConfigFromCliContext_multiplier_witness :
    goLib.crypto_ToECDSA (goLib.common_Hex2Bytes
        ((sampleContext 0).GetString .L1ProposerPrivKey)) = .ok 161 ∧
    ((sampleContext 0).IsSet .TxPoolLocals = true →
      ∀ e ∈ strings_Split ((sampleContext 0).GetString .TxPoolLocals) ',',
        goLib.common_IsHexAddress (goLib.strings_TrimSpace e) = true) ∧
    (sampleContext 0).Uint64 .ProposeBlockTxReplacementMultiplier = 0 ∧
    NewConfigFromCliContext goLib (sampleContext 0) =
      (none, some (.invalidReplacementMultiplier 0)) :=
  ⟨rfl, by decide, rfl,
    (NewConfigFromCliContext_multiplier goLib (sampleContext 0) 161 rfl (by decide)).1 rfl⟩

/-- C9: prover endpoint priority is the configuration order. For every CLI context on which
NewConfigFromCliContext succeeds, ProverEndpoints has one element per comma-separated entry
of the prover-endpoints flag, and its i-th element is the URL parsed from the i-th entry:
parsing the entries in order gives the elements of ProverEndpoints in order. -/
theorem NewConfigFromCliContext_ProverEndpoints {PrivateKey URL Err : Type}
    (lib : Lib PrivateKey URL Err) (c : Context) (cfg : Config PrivateKey URL)
    (hok : (NewConfigFromCliContext lib c).1 = some cfg) :
    cfg.ProverEndpoints.length = (strings_Split (c.GetString .ProverEndpoints) ',').length ∧
    (strings_Split (c.GetString .ProverEndpoints) ',').map lib.url_Parse =
      cfg.ProverEndpoints.map Except.ok ∧
    ∀ i : Fin cfg.ProverEndpoints.length,
      (strings_Split (c.GetString .ProverEndpoints) ',')[i.val]?.map lib.url_Parse =
        some (.ok (cfg.ProverEndpoints.get i)) := by
  obtain ⟨_, _, hloop, _⟩ := NewConfigFromCliContext_ok lib c cfg hok
  obtain ⟨parsed, hout, hmap⟩ := proverEndpointsLoop_ok lib _ _ _ hloop
  rw [List.nil_append] at hout
  subst hout
  refine ⟨?_, hmap, ?_⟩
  · have := congrArg List.length hmap
    simpa using this.symm
  · intro i
    rw [← List.getElem?_map, hmap, List.getElem?_map, List.getElem?_eq_getElem i.2]
    rfl

/-- C9 at a command line with two prover endpoints. -/
theorem NewConfigFromCliContext_ProverEndpoints_witness :
    (NewConfigFromCliContext goLib (sampleContext 2)).1 = some (sampleConfig 2) ∧
    (sampleConfig 2).ProverEndpoints.length =
      (strings_Split ((sampleContext 2).GetString .ProverEndpoints) ',').length ∧
    (strings_Split ((sampleContext 2).GetString .ProverEndpoints) ',').map goLib.url_Parse =
      (sampleConfig 2).ProverEndpoints.map Except.ok ∧
    ∀ i : Fin (sampleConfig 2).ProverEndpoints.length,
      (strings_Split ((sampleContext 2).GetString .ProverEndpoints) ',')[i.val]?.map
          goLib.url_Parse =
        some (.ok ((sampleConfig 2).ProverEndpoints.get i)) :=
  ⟨by decide,
    NewConfigFromCliContext_ProverEndpoints goLib (sampleContext 2) (sampleConfig 2) (by decide)⟩

/-- C10, as stated, fails: the Config built from a command line does not hold a base fee for
each of the five tier IDs: it has no entry for TierGuardianID. -/
theorem Config_tierFees_not_all_five :
    (NewConfigFromCliContext goLib (sampleContext 2)).1 = some (sampleConfig 2) ∧
    ¬ (∀ t ∈ [TierOptimisticID, TierSgxID, TierPseZkevmID, TierSgxAndPseZkevmID, TierGuardianID],
      ((sampleConfig 2).tierFees.map Prod.fst).count t = 1) := by
  decide

/-- C10, amended: the Config built by NewConfigFromCliContext holds exactly one base fee for
each of the four tier IDs Optimistic, Sgx, PseZkevm and SgxAndPseZkevm, the value of that
tier's flag, and none for Guardian. -/
theorem NewConfigFromCliContext_tierFees {PrivateKey URL Err : Type}
    (lib : Lib PrivateKey URL Err) (c : Context) (cfg : Config PrivateKey URL)
    (hok : (NewConfigFromCliContext lib c).1 = some cfg) :
    cfg.tierFees =
      [(TierOptimisticID, some (Int.ofNat (c.Uint64 .OptimisticTierFee))),
       (TierSgxID, some (Int.ofNat (c.Uint64 .SgxTierFee))),
       (TierPseZkevmID, some (Int.ofNat (c.Uint64 .PseZkevmTierFee))),
       (TierSgxAndPseZkevmID, some (Int.ofNat (c.Uint64 .SgxAndPseZkevmTierFee)))] ∧
    (cfg.tierFees.map Prod.fst).count TierOptimisticID = 1 ∧
    (cfg.tierFees.map Prod.fst).count TierSgxID = 1 ∧
    (cfg.tierFees.map Prod.fst).count TierPseZkevmID = 1 ∧
    (cfg.tierFees.map Prod.fst).count TierSgxAndPseZkevmID = 1 ∧
    (cfg.tierFees.map Prod.fst).count TierGuardianID = 0 := by
  obtain ⟨_, _, _, h1, h2, h3, h4⟩ := NewConfigFromCliContext_ok lib c cfg hok
  refine ⟨by simp only [Config.tierFees, h1, h2, h3, h4], ?_, ?_, ?_, ?_, ?_⟩ <;>
    simp [Config.tierFees, TierOptimisticID, TierSgxID, TierPseZkevmID, TierSgxAndPseZkevmID,
      TierGuardianID]

/-- C10, amended, at a command line with the tier fees 11, 22, 33 and 44. -/
theorem NewConfigFromCliContext_tierFees_witness :
    (NewConfigFromCliContext goLib (sampleContext 2)).1 = some (sampleConfig 2) ∧
    (sampleConfig 2).tierFees =
      [(TierOptimisticID, some 11), (TierSgxID, some 22), (TierPseZkevmID, some 33),
       (TierSgxAndPseZkevmID, some 44)] ∧
    ((sampleConfig 2).tierFees.map Prod.fst).count TierGuardianID = 0 :=
  ⟨by decide,
    (NewConfigFromCliContext_tierFees goLib (sampleContext 2) (sampleConfig 2) (by decide)).1,
    (NewConfigFromCliContext_tierFees goLib (sampleContext 2) (sampleConfig 2)
      (by decide)).2.2.2.2.2⟩

/-! ## Event iterators -/

theorem EventIterator.Next_failed {E Err : Type} (ops : EventOps E) (contract : UnpackLog E Err)
    (pick : SelectCase) (it : EventIterator E Err) (h : it.fail ≠ none) :
    EventIterator.Next ops contract pick it = some (false, it) := by
  rw [EventIterator.Next]
  have : it.fail.isSome = true := by
    cases hf : it.fail with
    | none => exact absurd hf h
    | some e => rfl
  simp [this]

theorem EventIterator.Next_done {E Err : Type} (ops : EventOps E) (contract : UnpackLog E Err)
    (pick : SelectCase) (it : EventIterator E Err) (hfail : it.fail = none)
    (hdone : it.done = true) :
    EventIterator.Next ops contract pick it =
      match it.logs with
      | log :: rest => some (EventIterator.receiveLog ops contract it log rest)
      | [] => some (false, it) := by
  rw [EventIterator.Next]
  simp [hfail, hdone]

theorem EventIterator.Next_logs {E Err : Type} (ops : EventOps E) (contract : UnpackLog E Err)
    (pick : SelectCase) (it : EventIterator E Err) (log : Log) (rest : List Log)
    (hfail : it.fail = none) (hdone : it.done = false) (hlogs : it.logs = log :: rest)
    (hsel : goSelect (!it.logs.isEmpty) it.sub.isSome pick = some .logs) :
    EventIterator.Next ops contract pick it =
      some (EventIterator.receiveLog ops contract it log rest) := by
  rw [EventIterator.Next]
  simp only [hfail, hdone, Option.isSome_none, Bool.false_eq_true, if_false]
  rw [hsel, hlogs]

theorem EventIterator.Next_subErr {E Err : Type} (ops : EventOps E) (contract : UnpackLog E Err)
    (pick : SelectCase) (it : EventIterator E Err) (err : Option Err)
    (hfail : it.fail = none) (hdone : it.done = false) (hsub : it.sub = some err)
    (hsel : goSelect (!it.logs.isEmpty) it.sub.isSome pick = some .subErr) :
    EventIterator.Next ops contract pick it =
      EventIterator.Next ops contract pick
        { it with done := true, fail := err, sub := some none } := by
  rw [EventIterator.Next]
  simp only [hfail, hdone, Option.isSome_none, Bool.false_eq_true, if_false]
  rw [hsel, hsub]


theorem EventIterator.receiveLog_error {E Err : Type} (ops : EventOps E)
    (contract : UnpackLog E Err) (it : EventIterator E Err) (log : Log) (rest : List Log)
    (event : E) (e : Err) (h : contract ops.new it.event log = (event, some e)) :
    EventIterator.receiveLog ops contract it log rest =
      (false, { it with logs := rest, Event := some event, fail := some e }) := by
  simp [EventIterator.receiveLog, h]

theorem EventIterator.receiveLog_true {E Err : Type} (ops : EventOps E)
    (contract : UnpackLog E Err) (it it' : EventIterator E Err) (log : Log) (rest : List Log)
    (h : EventIterator.receiveLog ops contract it log rest = (true, it')) :
    ∃ event, contract ops.new it.event log = (event, none) ∧
      it' = { it with logs := rest, Event := some (ops.setRaw event log) } := by
  unfold EventIterator.receiveLog at h
  rcases hc : contract ops.new it.event log with ⟨event, _ | e⟩
  · rw [hc] at h
    simp only [Prod.mk.injEq, true_and] at h
    exact ⟨event, rfl, h.symm⟩
  · rw [hc] at h
    simp at h

theorem goSelect_logs (logsReady errReady : Bool) (pick : SelectCase)
    (h : goSelect logsReady errReady pick = some .logs) : logsReady = true := by
  cases logsReady <;> cases errReady <;> simp [goSelect] at h ⊢

theorem goSelect_subErr (logsReady errReady : Bool) (pick : SelectCase)
    (h : goSelect logsReady errReady pick = some .subErr) : errReady = true := by
  cases logsReady <;> cases errReady <;> simp [goSelect] at h ⊢

/-- C11: event iterator Next, error reporting. For every iterator state with no prior
failure: if the log taken from the log channel fails to unpack with error `e`, or the select
statement receives a non-nil error `e` from the subscription's error channel, then Next
returns false and a following Error() returns `e`. A log is taken on three paths: in the
completed state; when the select statement chooses the log case; and when the select
statement receives a nil error from the subscription, after which the recursive call
delivers what is in the log channel. -/
theorem EventIterator_Next_reports_error {E Err : Type} (ops : EventOps E)
    (contract : UnpackLog E Err) (pick : SelectCase) (it : EventIterator E Err)
    (hfail : it.fail = none) :
    (∀ log rest event e, it.logs = log :: rest →
      (it.done = true ∨ goSelect (!it.logs.isEmpty) it.sub.isSome pick = some .logs ∨
        (goSelect (!it.logs.isEmpty) it.sub.isSome pick = some .subErr ∧ it.sub = some none)) →
      contract ops.new it.event log = (event, some e) →
      ∃ it', EventIterator.Next ops contract pick it = some (false, it') ∧
        it'.Error = some e ∧ it'.logs = rest) ∧
    (∀ e, it.done = false → it.sub = some (some e) →
      goSelect (!it.logs.isEmpty) it.sub.isSome pick = some .subErr →
      ∃ it', EventIterator.Next ops contract pick it = some (false, it') ∧
        it'.Error = some e ∧ it'.logs = it.logs) := by
  constructor
  · intro log rest event e hlogs hcase hunpack
    by_cases hdone : it.done = true
    · refine ⟨{ it with logs := rest, Event := some event, fail := some e }, ?_, rfl, rfl⟩
      rw [← EventIterator.receiveLog_error ops contract it log rest event e hunpack]
      rw [EventIterator.Next_done ops contract pick it hfail hdone, hlogs]
    · have hdone' : it.done = false := by simpa using hdone
      rcases hcase with h | h | ⟨h, hsub⟩
      · exact absurd h hdone
      · refine ⟨{ it with logs := rest, Event := some event, fail := some e }, ?_, rfl, rfl⟩
        rw [← EventIterator.receiveLog_error ops contract it log rest event e hunpack]
        exact EventIterator.Next_logs ops contract pick it log rest hfail hdone' hlogs h
      · have hnext : EventIterator.Next ops contract pick it =
            some (false,
              { Event := some event, event := it.event, logs := rest, sub := some none,
                done := true, fail := some e }) := by
          rw [EventIterator.Next_subErr ops contract pick it none hfail hdone' hsub h]
          rw [EventIterator.Next_done ops contract pick _ rfl rfl]
          simp only [hlogs]
          rw [EventIterator.receiveLog_error ops contract
            { Event := it.Event, event := it.event, logs := log :: rest, sub := some none,
              done := true, fail := none } log rest event e hunpack]
        exact ⟨_, hnext, rfl, rfl⟩
  · intro e hdone hsub hsel
    refine ⟨{ it with done := true, fail := some e, sub := some none }, ?_, rfl, rfl⟩
    rw [EventIterator.Next_subErr ops contract pick it (some e) hfail hdone hsub hsel]
    exact EventIterator.Next_failed ops contract pick _ (by simp)

/-- C12: a failed event iterator stops iterating. In every iterator state where fail is
non-nil, Next returns false and leaves the iterator as it was (no log is consumed; Event,
done and fail are unchanged); hence, whatever is delivered to the channels between the
calls, every later call of Next returns, and returns false. -/
theorem EventIterator_Next_failed_stops {E Err : Type} (ops : EventOps E)
    (contract : UnpackLog E Err) (it : EventIterator E Err) (hfail : it.Error ≠ none) :
    (∀ pick, EventIterator.Next ops contract pick it = some (false, it)) ∧
    (∀ calls, EventIterator.NextCalls ops contract calls it =
      List.replicate calls.length false) := by
  refine ⟨fun pick => EventIterator.Next_failed ops contract pick it hfail, ?_⟩
  intro calls
  induction calls generalizing it with
  | nil => rfl
  | cons c rest ih =>
    obtain ⟨d, pick⟩ := c
    have hd : (it.deliver d).fail ≠ none := hfail
    simp only [EventIterator.NextCalls, EventIterator.Next_failed ops contract pick _ hd,
      List.length_cons, List.replicate_succ]
    rw [ih (it.deliver d) hd]

/-- C13: whenever Next returns true, exactly one log was taken from the log channel, Event
is a freshly unpacked event with its Raw field set to that log, and fail is still nil
(Error() returns nil). -/
theorem EventIterator_Next_true {E Err : Type} (ops : EventOps E)
    (contract : UnpackLog E Err) (pick : SelectCase) (it it' : EventIterator E Err)
    (h : EventIterator.Next ops contract pick it = some (true, it')) :
    ∃ log event, it.logs = log :: it'.logs ∧
      contract ops.new it.event log = (event, none) ∧
      it'.Event = some (ops.setRaw event log) ∧
      it'.Event.map ops.Raw = some log ∧
      it'.fail = none ∧ it'.Error = none := by
  have key : ∀ (jt : EventIterator E Err) (log : Log) (rest : List Log),
      jt.logs = log :: rest → jt.fail = none → jt.event = it.event →
      EventIterator.receiveLog ops contract jt log rest = (true, it') →
      ∃ log event, jt.logs = log :: it'.logs ∧
        contract ops.new it.event log = (event, none) ∧
        it'.Event = some (ops.setRaw event log) ∧
        it'.Event.map ops.Raw = some log ∧
        it'.fail = none ∧ it'.Error = none := by
    intro jt log rest hlogs hf hev hr
    obtain ⟨event, hc, hit⟩ := EventIterator.receiveLog_true ops contract jt it' log rest hr
    subst hit
    refine ⟨log, event, hlogs, hev ▸ hc, rfl, ?_, hf, hf⟩
    simp [ops.Raw_setRaw]
  by_cases hfail : it.fail = none
  · by_cases hdone : it.done = true
    · rw [EventIterator.Next_done ops contract pick it hfail hdone] at h
      cases hlogs : it.logs with
      | nil => rw [hlogs] at h; simp at h
      | cons log rest =>
        rw [hlogs] at h
        simp only [Option.some.injEq] at h
        exact hlogs ▸ key it log rest hlogs hfail rfl h
    · have hdone' : it.done = false := by simpa using hdone
      cases hsel : goSelect (!it.logs.isEmpty) it.sub.isSome pick with
      | none =>
        rw [EventIterator.Next] at h
        simp only [hfail, hdone', Option.isSome_none, Bool.false_eq_true, if_false] at h
        rw [hsel] at h
        simp at h
      | some c =>
        cases c with
        | logs =>
          cases hlogs : it.logs with
          | nil =>
            have := goSelect_logs _ _ _ hsel
            simp [hlogs] at this
          | cons log rest =>
            rw [EventIterator.Next_logs ops contract pick it log rest hfail hdone' hlogs hsel] at h
            simp only [Option.some.injEq] at h
            exact hlogs ▸ key it log rest hlogs hfail rfl h
        | subErr =>
          cases hsub : it.sub with
          | none =>
            have := goSelect_subErr _ _ _ hsel
            simp [hsub] at this
          | some err =>
            rw [EventIterator.Next_subErr ops contract pick it err hfail hdone' hsub hsel] at h
            cases err with
            | some e =>
              rw [EventIterator.Next_failed ops contract pick _ (by simp)] at h
              simp at h
            | none =>
              rw [EventIterator.Next_done ops contract pick _ rfl rfl] at h
              cases hlogs : it.logs with
              | nil => simp [hlogs] at h
              | cons log rest =>
                simp only [hlogs, Option.some.injEq] at h
                have := key { it with done := true, fail := none, sub := some none } log rest
                  hlogs rfl rfl h
                dsimp only at this
                rw [hlogs] at this
                exact this
  · rw [EventIterator.Next_failed ops contract pick it hfail] at h
    simp at h


/-- C11 at an in-progress AdminChanged iterator with a 3-byte log that does not unpack, taken
on the log case of the select statement and taken after a nil error of the subscription;
and at one with the error "eof" ready on the subscription's error channel. -/
theorem EventIterator_Next_reports_error_witness :
    (sampleIterator [sampleLog 3] none false none).fail = none ∧
    (∃ it', AssignmentHookAdminChangedIterator.Next sampleUnpackLog .logs
        (sampleIterator [sampleLog 3] none false none) = some (false, it') ∧
      it'.Error = some "abi: improperly formatted output" ∧ it'.logs = []) ∧
    (∃ it', AssignmentHookAdminChangedIterator.Next sampleUnpackLog .subErr
        (sampleIterator [sampleLog 3] (some none) false none) = some (false, it') ∧
      it'.Error = some "abi: improperly formatted output" ∧ it'.logs = []) ∧
    (∃ it', AssignmentHookAdminChangedIterator.Next sampleUnpackLog .logs
        (sampleIterator [] (some (some "eof")) false none) = some (false, it') ∧
      it'.Error = some "eof" ∧ it'.logs = []) :=
  ⟨rfl,
    (EventIterator_Next_reports_error AssignmentHookAdminChanged.ops sampleUnpackLog .logs
      (sampleIterator [sampleLog 3] none false none) rfl).1 (sampleLog 3) []
      AssignmentHookAdminChanged.new "abi: improperly formatted output" rfl
      (Or.inr (Or.inl rfl)) rfl,
    (EventIterator_Next_reports_error AssignmentHookAdminChanged.ops sampleUnpackLog .subErr
      (sampleIterator [sampleLog 3] (some none) false none) rfl).1 (sampleLog 3) []
      AssignmentHookAdminChanged.new "abi: improperly formatted output" rfl
      (Or.inr (Or.inr ⟨rfl, rfl⟩)) rfl,
    (EventIterator_Next_reports_error AssignmentHookAdminChanged.ops sampleUnpackLog .logs
      (sampleIterator [] (some (some "eof")) false none) rfl).2 "eof" rfl rfl rfl⟩

/-- C12 at an AdminChanged iterator that failed with "eof" while a log is in its channel. -/
theorem EventIterator_Next_failed_stops_witness :
    (sampleIterator [sampleLog 64] none true (some "eof")).Error ≠ none ∧
    (∀ pick, AssignmentHookAdminChangedIterator.Next sampleUnpackLog pick
        (sampleIterator [sampleLog 64] none true (some "eof")) =
      some (false, sampleIterator [sampleLog 64] none true (some "eof"))) ∧
    (∀ calls, EventIterator.NextCalls AssignmentHookAdminChanged.ops sampleUnpackLog calls
        (sampleIterator [sampleLog 64] none true (some "eof")) =
      List.replicate calls.length false) :=
  ⟨by decide,
    EventIterator_Next_failed_stops AssignmentHookAdminChanged.ops sampleUnpackLog
      (sampleIterator [sampleLog 64] none true (some "eof")) (by decide)⟩

/-- C13 at a completed AdminChanged iterator with a 64-byte log and a 3-byte log in its
channel: Next returns true and takes the first log. -/
theorem EventIterator_Next_true_witness :
    AssignmentHookAdminChangedIterator.Next sampleUnpackLog .logs
        (sampleIterator [sampleLog 64, sampleLog 3] (some none) true none) =
      some (true, { sampleIterator [sampleLog 3] (some none) true none with
        Event := some sampleEvent }) ∧
    ∃ log event,
      (sampleIterator [sampleLog 64, sampleLog 3] (some none) true none).logs =
        log :: ({ sampleIterator [sampleLog 3] (some none) true none with
          Event := some sampleEvent } : EventIterator AssignmentHookAdminChanged String).logs ∧
      sampleUnpackLog AssignmentHookAdminChanged.ops.new "AdminChanged" log = (event, none) ∧
      some sampleEvent = some (AssignmentHookAdminChanged.ops.setRaw event log) ∧
      (some sampleEvent).map AssignmentHookAdminChanged.ops.Raw = some log ∧
      (none : Option String) = none ∧
      ({ sampleIterator [sampleLog 3] (some none) true none with
          Event := some sampleEvent } : EventIterator AssignmentHookAdminChanged String).Error =
        none :=
  have h : AssignmentHookAdminChangedIterator.Next sampleUnpackLog .logs
        (sampleIterator [sampleLog 64, sampleLog 3] (some none) true none) =
      some (true, { sampleIterator [sampleLog 3] (some none) true none with
        Event := some sampleEvent }) := by
    unfold AssignmentHookAdminChangedIterator.Next
    rw [EventIterator.Next_done _ _ _ _ rfl rfl]
    decide
  ⟨h, EventIterator_Next_true AssignmentHookAdminChanged.ops sampleUnpackLog .logs _ _ h⟩

/-! ## Log parsers and call bindings -/

theorem parseLog_spec {E Err : Type} (ops : EventOps E) (contract : UnpackLog E Err)
    (eventName : String) (log : Log) :
    (∀ event e, contract ops.new eventName log = (event, some e) →
      parseLog ops contract eventName log = (none, some e)) ∧
    (∀ event, contract ops.new eventName log = (event, none) →
      parseLog ops contract eventName log = (some (ops.setRaw event log), none)) ∧
    ¬ ((parseLog ops contract eventName log).1.isSome = true ∧
      (parseLog ops contract eventName log).2.isSome = true) := by
  unfold parseLog
  rcases hc : contract ops.new eventName log with ⟨event, _ | e⟩ <;> simp

/-- C14: log parse operations ParseAdminChanged and ParseBlockProposed. For every log: if
unpacking fails with error `e` the operation returns no event (nil) and `e`; otherwise it
returns the unpacked event with Raw set to the input log, the other fields as unpacked, and
a nil error. It never returns both an event and an error. -/
theorem Parse_event_or_error {Err : Type}
    (contractA : UnpackLog AssignmentHookAdminChanged Err)
    (contractB : UnpackLog TaikoL1ClientBlockProposed Err) (log : Log) :
    ((∀ event e, contractA AssignmentHookAdminChanged.new "AdminChanged" log = (event, some e) →
        AssignmentHookFilterer.ParseAdminChanged contractA log = (none, some e)) ∧
      (∀ event, contractA AssignmentHookAdminChanged.new "AdminChanged" log = (event, none) →
        AssignmentHookFilterer.ParseAdminChanged contractA log =
          (some { PreviousAdmin := event.PreviousAdmin, NewAdmin := event.NewAdmin, Raw := log },
            none)) ∧
      ¬ ((AssignmentHookFilterer.ParseAdminChanged contractA log).1.isSome = true ∧
        (AssignmentHookFilterer.ParseAdminChanged contractA log).2.isSome = true)) ∧
    ((∀ event e, contractB TaikoL1ClientBlockProposed.new "BlockProposed" log = (event, some e) →
        TaikoL1ClientFilterer.ParseBlockProposed contractB log = (none, some e)) ∧
      (∀ event, contractB TaikoL1ClientBlockProposed.new "BlockProposed" log = (event, none) →
        TaikoL1ClientFilterer.ParseBlockProposed contractB log =
          (some { BlockId := event.BlockId, AssignedProver := event.AssignedProver,
                  LivenessBond := event.LivenessBond, Meta := event.Meta,
                  DepositsProcessed := event.DepositsProcessed, Raw := log }, none)) ∧
      ¬ ((TaikoL1ClientFilterer.ParseBlockProposed contractB log).1.isSome = true ∧
        (TaikoL1ClientFilterer.ParseBlockProposed contractB log).2.isSome = true)) :=
  ⟨parseLog_spec AssignmentHookAdminChanged.ops contractA "AdminChanged" log,
    parseLog_spec TaikoL1ClientBlockProposed.ops contractB "BlockProposed" log⟩

/-- C15: read-only call bindings return result or error, never a partial result. When the
contract call of method "hashAssignment" with the arguments assignment, taikoL1Address,
blobHash (in that order) fails with error `e`, HashAssignment returns the all-zero hash and
`e`; when it succeeds with a 32-byte first output, HashAssignment returns that output and a
nil error. Likewise GetStateVariables, on method "getStateVariables" without arguments,
returns the zero SlotA/SlotB struct and `e`, or the two converted outputs and nil. -/
theorem call_bindings_result_or_error {Err : Type} (contract : ContractCall Err)
    (opts : CallOpts) (assignment : AssignmentHookProverAssignment) (taikoL1Address : Address)
    (blobHash : Arr Byte 32) :
    (∀ out e, contract opts "hashAssignment"
          [.assignment assignment, .address taikoL1Address, .bytes32 blobHash] = (out, some e) →
        AssignmentHookCaller.HashAssignment contract opts assignment taikoL1Address blobHash =
          some (zeroBytes 32, some e)) ∧
    (∀ h rest, contract opts "hashAssignment"
          [.assignment assignment, .address taikoL1Address, .bytes32 blobHash] =
          (.bytes32 h :: rest, none) →
        AssignmentHookCaller.HashAssignment contract opts assignment taikoL1Address blobHash =
          some (h, none)) ∧
    (∀ out e, contract opts "getStateVariables" [] = (out, some e) →
        TaikoL1ClientCaller.GetStateVariables contract opts =
          some (StateVariables.zero, some e)) ∧
    (∀ a b rest, contract opts "getStateVariables" [] = (.slotA a :: .slotB b :: rest, none) →
        TaikoL1ClientCaller.GetStateVariables contract opts = some ({ A := a, B := b }, none)) ∧
    StateVariables.zero = ⟨⟨0, 0, 0, 0⟩, ⟨0, 0, false⟩⟩ ∧
    (zeroBytes 32).toList = List.replicate 32 0 := by
  refine ⟨?_, ?_, ?_, ?_, rfl, rfl⟩
  · intro out e h
    simp [AssignmentHookCaller.HashAssignment, h]
  · intro x rest h
    simp [AssignmentHookCaller.HashAssignment, h, ConvertType_bytes32]
  · intro out e h
    simp [TaikoL1ClientCaller.GetStateVariables, h]
  · intro a b rest h
    simp [TaikoL1ClientCaller.GetStateVariables, h, ConvertType_SlotA, ConvertType_SlotB]

/-- C16: determinism of the assignment commitment hash. For fixed assignment fields, rollup
(TaikoL1) address and blob hash, every invocation of HashAssignment that reaches the
contract returns `buildHash` of these three inputs and a nil error, whatever the call
options; an invocation that fails on the network returns the error beside the zero value;
so any two invocations that return a hash return the same 32-byte value. -/
theorem HashAssignment_deterministic (Keccak256 : List Byte → Arr Byte 32)
    (canonicalEncode : CommitmentFields → Address → Arr Byte 32 → List Byte)
    (assignment : AssignmentHookProverAssignment) (taikoL1Address : Address)
    (blobHash : Arr Byte 32) :
    (∀ opts, AssignmentHookCaller.HashAssignment
        (assignmentHookBackend Keccak256 canonicalEncode none) opts assignment taikoL1Address
        blobHash =
      some (buildHash Keccak256 canonicalEncode assignment taikoL1Address blobHash, none)) ∧
    (∀ opts reason, AssignmentHookCaller.HashAssignment
        (assignmentHookBackend Keccak256 canonicalEncode (some reason)) opts assignment
        taikoL1Address blobHash =
      some (zeroBytes 32, some (.NetworkError reason))) ∧
    (∀ opts₁ opts₂ net₁ net₂ h₁ h₂,
      AssignmentHookCaller.HashAssignment
        (assignmentHookBackend Keccak256 canonicalEncode net₁) opts₁ assignment taikoL1Address
        blobHash = some (h₁, none) →
      AssignmentHookCaller.HashAssignment
        (assignmentHookBackend Keccak256 canonicalEncode net₂) opts₂ assignment taikoL1Address
        blobHash = some (h₂, none) →
      h₁ = h₂ ∧
        h₁ = buildHash Keccak256 canonicalEncode assignment taikoL1Address blobHash) := by
  have hreach : ∀ opts, AssignmentHookCaller.HashAssignment
      (assignmentHookBackend Keccak256 canonicalEncode none) opts assignment taikoL1Address
      blobHash =
      some (buildHash Keccak256 canonicalEncode assignment taikoL1Address blobHash, none) := by
    intro opts
    simp [AssignmentHookCaller.HashAssignment, assignmentHookBackend, ConvertType_bytes32]
  have hnet : ∀ opts reason, AssignmentHookCaller.HashAssignment
      (assignmentHookBackend Keccak256 canonicalEncode (some reason)) opts assignment
      taikoL1Address blobHash = some (zeroBytes 32, some (.NetworkError reason)) := by
    intro opts reason
    simp [AssignmentHookCaller.HashAssignment, assignmentHookBackend]
  have hval : ∀ opts net h, AssignmentHookCaller.HashAssignment
      (assignmentHookBackend Keccak256 canonicalEncode net) opts assignment taikoL1Address
      blobHash = some (h, none) →
      h = buildHash Keccak256 canonicalEncode assignment taikoL1Address blobHash := by
    intro opts net h hh
    cases net with
    | none =>
      rw [hreach opts] at hh
      simp only [Option.some.injEq, Prod.mk.injEq, and_true] at hh
      exact hh.symm
    | some reason =>
      rw [hnet opts reason] at hh
      simp at hh
  refine ⟨hreach, hnet, ?_⟩
  intro opts₁ opts₂ net₁ net₂ h₁ h₂ e₁ e₂
  have v₁ := hval opts₁ net₁ h₁ e₁
  have v₂ := hval opts₂ net₂ h₂ e₂
  exact ⟨by rw [v₁, v₂], v₁⟩

/-! ## Tier-fee escalation and transaction replacement -/

theorem feeFor_feeTable_succ (catalog : TierFeeCatalog) (bumpFraction attempt tier : Nat) :
    feeFor (feeTable catalog bumpFraction (attempt + 1)) tier =
      escalate (feeTable catalog bumpFraction attempt) tier bumpFraction := by
  simp only [feeTable, escalate, feeFor]
  induction feeTable catalog bumpFraction attempt with
  | nil => rfl
  | cons entry rest ih =>
    obtain ⟨t, fee⟩ := entry
    simp only [List.map_cons, List.lookup_cons]
    cases h : tier == t with
    | true => rfl
    | false => exact ih

/-- C17: tier-fee escalation. `escalate` returns fee + floor(fee*bumpFraction/10000) of the
tier's fee; the fee table of an attempt is the previous attempt's table escalated, so the
escalation compounds per attempt; for bumpFraction = 1000 and base fee 100 the fees of three
successive attempts are 100, 110 and 121; and for every fee and bumpFraction the escalated
fee is never below the previous one. -/
theorem escalate_compounds (catalog : TierFeeCatalog) (tier bumpFraction attempt : Nat) :
    (∀ fee, feeFor catalog tier = some fee →
      escalate catalog tier bumpFraction = some (fee + fee * bumpFraction / 10000)) ∧
    feeFor (feeTable catalog bumpFraction (attempt + 1)) tier =
      escalate (feeTable catalog bumpFraction attempt) tier bumpFraction ∧
    (List.range 3).map (fun k => feeFor (feeTable [(tier, 100)] 1000 k) tier) =
      [some 100, some 110, some 121] ∧
    (∀ fee, feeFor catalog tier = some fee →
      ∃ fee', escalate catalog tier bumpFraction = some fee' ∧ fee ≤ fee') ∧
    (∀ fee, feeFor (feeTable catalog bumpFraction attempt) tier = some fee →
      ∃ fee', feeFor (feeTable catalog bumpFraction (attempt + 1)) tier = some fee' ∧
        fee ≤ fee') := by
  refine ⟨?_, feeFor_feeTable_succ catalog bumpFraction attempt tier, ?_, ?_, ?_⟩
  · intro fee h
    simp [escalate, h]
  · simp only [List.range, List.range.loop, List.map_cons, List.map_nil, feeTable, feeFor,
      List.lookup, beq_self_eq_true]
  · intro fee h
    exact ⟨fee + fee * bumpFraction / 10000, by simp [escalate, h], Nat.le_add_right _ _⟩
  · intro fee h
    rw [feeFor_feeTable_succ]
    exact ⟨fee + fee * bumpFraction / 10000, by simp [escalate, h], Nat.le_add_right _ _⟩

theorem attemptAfterTimeouts_fields (first : SubmissionAttempt) (replacementMultiplier k : Nat) :
    (attemptAfterTimeouts first replacementMultiplier k).gasTipCap =
      first.gasTipCap * replacementMultiplier ^ k ∧
    (attemptAfterTimeouts first replacementMultiplier k).nonce = first.nonce := by
  induction k with
  | zero => simp [attemptAfterTimeouts]
  | succ k ih =>
    simp only [attemptAfterTimeouts, replaceAttempt, ih.1, ih.2, pow_succ, Nat.mul_assoc,
      and_self]

/-- C18: transaction replacement bump. The first attempt has gasTipCap = gasTipSeed; each
timeout multiplies the tip cap by replacementMultiplier and keeps the nonce, so after `k`
timeouts the tip cap is gasTipSeed * replacementMultiplier^k; with gasTipSeed = 1 and
replacementMultiplier = 2 the tip caps across three consecutive timeouts are 1, 2, 4, 8. -/
theorem replacement_bump (nonce gasTipSeed gasFeeCap replacementMultiplier k : Nat) :
    (firstAttempt nonce gasTipSeed gasFeeCap).gasTipCap = gasTipSeed ∧
    (attemptAfterTimeouts (firstAttempt nonce gasTipSeed gasFeeCap) replacementMultiplier
        (k + 1)).gasTipCap =
      (attemptAfterTimeouts (firstAttempt nonce gasTipSeed gasFeeCap) replacementMultiplier
        k).gasTipCap * replacementMultiplier ∧
    (attemptAfterTimeouts (firstAttempt nonce gasTipSeed gasFeeCap) replacementMultiplier
        k).gasTipCap = gasTipSeed * replacementMultiplier ^ k ∧
    (attemptAfterTimeouts (firstAttempt nonce gasTipSeed gasFeeCap) replacementMultiplier
        k).nonce = nonce ∧
    (List.range 4).map (fun t =>
        (attemptAfterTimeouts (firstAttempt nonce 1 gasFeeCap) 2 t).gasTipCap) =
      [1, 2, 4, 8] := by
  refine ⟨rfl, rfl, (attemptAfterTimeouts_fields _ _ _).1, (attemptAfterTimeouts_fields _ _ _).2,
    ?_⟩
  simp [List.range, List.range.loop, attemptAfterTimeouts, replaceAttempt, firstAttempt]

/-! ## Assignment types -/

theorem TierFees_roundtrip (l : List TierFee) :
    (l.map TierFee.toBinding).map TaikoDataTierFee.toEncoding = l := by
  induction l with
  | nil => rfl
  | cons t rest ih => simp only [List.map_cons, ih]; rfl

theorem TaikoDataTierFees_roundtrip (l : List TaikoDataTierFee) :
    (l.map TaikoDataTierFee.toEncoding).map TierFee.toBinding = l := by
  induction l with
  | nil => rfl
  | cons t rest ih => simp only [List.map_cons, ih]; rfl

/-- C19: the hand-written encoding.ProverAssignment and encoding.TierFee have the same
fields, in the same order and with the same types, as the generated
bindings.AssignmentHookProverAssignment and bindings.TaikoDataTierFee: the conversion that
passes the fields in declaration order keeps every field under its name, and it round-trips
in both directions, so it is a bijection. -/
theorem ProverAssignment_same_as_binding :
    (∀ a : ProverAssignment,
      a.toBinding.FeeToken = a.FeeToken ∧ a.toBinding.Expiry = a.Expiry ∧
      a.toBinding.MaxBlockId = a.MaxBlockId ∧ a.toBinding.MaxProposedIn = a.MaxProposedIn ∧
      a.toBinding.MetaHash = a.MetaHash ∧ a.toBinding.ParentMetaHash = a.ParentMetaHash ∧
      a.toBinding.TierFees.map (fun t => (t.Tier, t.Fee)) =
        a.TierFees.map (fun t => (t.Tier, t.Fee)) ∧
      a.toBinding.Signature = a.Signature) ∧
    (∀ a : ProverAssignment, a.toBinding.toEncoding = a) ∧
    (∀ b : AssignmentHookProverAssignment, b.toEncoding.toBinding = b) ∧
    (∀ t : TierFee, t.toBinding.toEncoding = t) ∧
    (∀ t : TaikoDataTierFee, t.toEncoding.toBinding = t) ∧
    Function.Bijective ProverAssignment.toBinding ∧
    Function.Bijective TierFee.toBinding := by
  have h1 : ∀ a : ProverAssignment, a.toBinding.toEncoding = a := by
    intro a
    cases a
    simp only [ProverAssignment.toBinding, AssignmentHookProverAssignment.toEncoding,
      TierFees_roundtrip]
  have h2 : ∀ b : AssignmentHookProverAssignment, b.toEncoding.toBinding = b := by
    intro b
    cases b
    simp only [ProverAssignment.toBinding, AssignmentHookProverAssignment.toEncoding,
      TaikoDataTierFees_roundtrip]
  have h3 : ∀ t : TierFee, t.toBinding.toEncoding = t := fun _ => rfl
  have h4 : ∀ t : TaikoDataTierFee, t.toEncoding.toBinding = t := fun _ => rfl
  refine ⟨?_, h1, h2, h3, h4, ?_, ?_⟩
  · intro a
    refine ⟨rfl, rfl, rfl, rfl, rfl, rfl, ?_, rfl⟩
    simp [ProverAssignment.toBinding, TierFee.toBinding]
  · exact Function.bijective_iff_has_inverse.mpr ⟨_, h1, h2⟩
  · exact Function.bijective_iff_has_inverse.mpr ⟨_, h3, h4⟩

/-! ## Executable data -/

/-- C20, as stated, fails: for a header whose Number is -1, the Number of the executable
data is 1, not -1 reduced modulo 2^64 (which is 2^64 - 1). -/
theorem ToExecutableData_Number_not_mod :
    ¬ (∀ ed, ToExecutableData (fun _ => zeroBytes 32) (sampleHeaderNumbered (some (-1))) =
        some ed → (ed.Number : Int) = (-1) % 2 ^ 64) := by
  intro h
  have := h _ rfl
  revert this
  decide

/-- C20, amended: for every geth header `h` with a non-nil Number `n`, ToExecutableData
returns a value that copies ParentHash, Coinbase (as FeeRecipient), Root, ReceiptHash,
MixDigest (as Random), GasLimit, GasUsed, Time, Extra, BaseFee and TxHash from `h`;
LogsBloom is the 256 bytes of h.Bloom; Number is the absolute value of `n` reduced modulo
2^64, which is `n` reduced modulo 2^64 when `n` is not negative; and WithdrawalsHash is
*h.WithdrawalsHash when that pointer is non-nil and the all-zero hash otherwise. -/
theorem ToExecutableData_fields (headerHash : Header → Hash) (h : Header) (n : Int)
    (hn : h.Number = some n) :
    ∃ ed, ToExecutableData headerHash h = some ed ∧
      ed.ParentHash = h.ParentHash ∧ ed.FeeRecipient = h.Coinbase ∧ ed.StateRoot = h.Root ∧
      ed.ReceiptsRoot = h.ReceiptHash ∧ ed.Random = h.MixDigest ∧ ed.GasLimit = h.GasLimit ∧
      ed.GasUsed = h.GasUsed ∧ ed.Timestamp = h.Time ∧ ed.ExtraData = h.Extra ∧
      ed.BaseFeePerGas = h.BaseFee ∧ ed.TxHash = h.TxHash ∧
      ed.LogsBloom = h.Bloom.toList ∧ ed.LogsBloom.length = 256 ∧
      ed.Number = n.natAbs % 2 ^ 64 ∧
      (0 ≤ n → (ed.Number : Int) = n % 2 ^ 64) ∧
      ed.WithdrawalsHash = h.WithdrawalsHash.getD (zeroBytes 32) := by
  have hnum : 0 ≤ n → ((n.natAbs % 2 ^ 64 : Nat) : Int) = n % 2 ^ 64 := by
    intro h0
    omega
  unfold ToExecutableData
  rw [hn]
  cases hw : h.WithdrawalsHash with
  | none =>
    exact ⟨_, rfl, rfl, rfl, rfl, rfl, rfl, rfl, rfl, rfl, rfl, rfl, rfl, rfl, h.Bloom.2, rfl,
      hnum, rfl⟩
  | some w =>
    exact ⟨_, rfl, rfl, rfl, rfl, rfl, rfl, rfl, rfl, rfl, rfl, rfl, rfl, rfl, h.Bloom.2, rfl,
      hnum, rfl⟩

/-- C20, amended, at a header with Number 2^64 + 5 and no withdrawals hash. -/
theorem ToExecutableData_fields_witness :
    (sampleHeaderNumbered (some (2 ^ 64 + 5))).Number = some (2 ^ 64 + 5) ∧
    ∃ ed, ToExecutableData (fun _ => zeroBytes 32) (sampleHeaderNumbered (some (2 ^ 64 + 5))) =
        some ed ∧
      ed.Number = 5 ∧ ed.WithdrawalsHash = zeroBytes 32 ∧ ed.LogsBloom.length = 256 ∧
      ed.BaseFeePerGas = some 7 :=
  ⟨rfl,
    match ToExecutableData_fields (fun _ => zeroBytes 32)
      (sampleHeaderNumbered (some (2 ^ 64 + 5))) (2 ^ 64 + 5) rfl with
    | ⟨ed, hed, h⟩ =>
      ⟨ed, hed, h.2.2.2.2.2.2.2.2.2.2.2.2.2.1, h.2.2.2.2.2.2.2.2.2.2.2.2.2.2.2,
        h.2.2.2.2.2.2.2.2.2.2.2.2.1, h.2.2.2.2.2.2.2.2.2.1⟩⟩

/-! ## Validation of the local accounts -/

theorem localAddressesLoop_ok {PrivateKey URL Err : Type} (lib : Lib PrivateKey URL Err)
    (entries : List String) (acc out : List Address)
    (h : localAddressesLoop lib entries acc = .ok out) :
    out = acc ++ entries.map lib.common_HexToAddress ∧
      ∀ e ∈ entries, lib.common_IsHexAddress (lib.strings_TrimSpace e) = true := by
  induction entries generalizing acc with
  | nil =>
    simp only [localAddressesLoop, Except.ok.injEq] at h
    simp [h]
  | cons e rest ih =>
    simp only [localAddressesLoop] at h
    cases he : lib.common_IsHexAddress (lib.strings_TrimSpace e) with
    | false => simp [he] at h
    | true =>
      simp only [he, Bool.not_true, Bool.false_eq_true, if_false] at h
      obtain ⟨hout, hall⟩ := ih _ h
      refine ⟨by simp [hout], ?_⟩
      intro x hx
      rcases List.mem_cons.mp hx with rfl | hx
      · exact he
      · exact hall x hx

theorem localAddressesLoop_error {PrivateKey URL Err : Type} (lib : Lib PrivateKey URL Err)
    (entries : List String) (acc : List Address) (trimmed : String)
    (h : localAddressesLoop lib entries acc = .error trimmed) :
    ∃ e ∈ entries, lib.strings_TrimSpace e = trimmed ∧
      lib.common_IsHexAddress (lib.strings_TrimSpace e) = false := by
  induction entries generalizing acc with
  | nil => simp [localAddressesLoop] at h
  | cons e rest ih =>
    simp only [localAddressesLoop] at h
    cases he : lib.common_IsHexAddress (lib.strings_TrimSpace e) with
    | false =>
      simp only [he, Bool.not_false, if_true, Except.error.injEq] at h
      exact ⟨e, List.mem_cons_self e rest, h, he⟩
    | true =>
      simp only [he, Bool.not_true, Bool.false_eq_true, if_false] at h
      obtain ⟨x, hx, hx2⟩ := ih _ h
      exact ⟨x, List.mem_cons_of_mem e hx, hx2⟩

/-- What `NewConfigFromCliContext` does with `--txpool.locals` once the key is accepted: an
error of the loop over the entries is the result; and the local addresses of a returned
Config are what the loop returned, or empty when the flag is not set. -/
theorem NewConfigFromCliContext_locals {PrivateKey URL Err : Type}
    (lib : Lib PrivateKey URL Err) (c : Context) (key : PrivateKey)
    (hkey : lib.crypto_ToECDSA (lib.common_Hex2Bytes (c.GetString .L1ProposerPrivKey)) = .ok key) :
    (∀ trimmed, NewConfigFromCliContext lib c = (none, some (.invalidLocalAccount trimmed)) ↔
      (c.IsSet .TxPoolLocals = true ∧
        localAddressesLoop lib (strings_Split (c.GetString .TxPoolLocals) ',') [] =
          .error trimmed)) ∧
    (∀ cfg, (NewConfigFromCliContext lib c).1 = some cfg →
      (if c.IsSet .TxPoolLocals = true then
        localAddressesLoop lib (strings_Split (c.GetString .TxPoolLocals) ',') []
      else .ok []) = .ok cfg.LocalAddresses) := by
  unfold NewConfigFromCliContext
  rw [hkey]
  simp only
  cases hloc : (if c.IsSet .TxPoolLocals = true then
      localAddressesLoop lib (strings_Split (c.GetString .TxPoolLocals) ',') []
    else Except.ok []) with
  | error t =>
    simp only
    constructor
    · intro trimmed
      constructor
      · intro h
        simp only [Prod.mk.injEq, true_and, Option.some.injEq, ConfigError.invalidLocalAccount.injEq] at h
        subst h
        by_cases hset : c.IsSet .TxPoolLocals = true
        · rw [if_pos hset] at hloc
          exact ⟨hset, hloc⟩
        · rw [if_neg hset] at hloc
          cases hloc
      · rintro ⟨hset, hl⟩
        rw [if_pos hset, hl] at hloc
        cases hloc
        rfl
    · intro cfg h
      cases h
  | ok locals =>
    simp only
    constructor
    · intro trimmed
      constructor
      · intro h
        split at h
        · cases h
        · split at h <;> cases h
      · rintro ⟨hset, hl⟩
        rw [if_pos hset, hl] at hloc
        cases hloc
    · intro cfg h
      split at h
      · cases h
      · split at h
        · cases h
        · simp only [Option.some.injEq] at h
          subst h
          rfl


/-- C21: validation of --txpool.locals. For every CLI context with a valid private key: when
the flag is set, NewConfigFromCliContext fails with the "invalid account in
--txpool.locals" error if and only if some comma-separated entry, after trimming
surrounding white space, is not a hex address, and every Config it returns has exactly one
local address per entry, the i-th made from the i-th entry; when the flag is not set, the
LocalAddresses of every Config it returns is empty. -/
theorem NewConfigFromCliContext_txpool_locals {PrivateKey URL Err : Type}
    (lib : Lib PrivateKey URL Err) (c : Context) (key : PrivateKey)
    (hkey : lib.crypto_ToECDSA (lib.common_Hex2Bytes (c.GetString .L1ProposerPrivKey)) = .ok key) :
    (c.IsSet .TxPoolLocals = true →
      ((∃ trimmed, NewConfigFromCliContext lib c = (none, some (.invalidLocalAccount trimmed))) ↔
        ∃ e ∈ strings_Split (c.GetString .TxPoolLocals) ',',
          lib.common_IsHexAddress (lib.strings_TrimSpace e) = false) ∧
      (∀ cfg, (NewConfigFromCliContext lib c).1 = some cfg →
        cfg.LocalAddresses.length = (strings_Split (c.GetString .TxPoolLocals) ',').length ∧
        cfg.LocalAddresses =
          (strings_Split (c.GetString .TxPoolLocals) ',').map lib.common_HexToAddress)) ∧
    (c.IsSet .TxPoolLocals = false →
      ∀ cfg, (NewConfigFromCliContext lib c).1 = some cfg → cfg.LocalAddresses = []) := by
  obtain ⟨herr, hok⟩ := NewConfigFromCliContext_locals lib c key hkey
  refine ⟨fun hset => ⟨⟨?_, ?_⟩, ?_⟩, ?_⟩
  · rintro ⟨trimmed, h⟩
    obtain ⟨e, he, _, hbad⟩ := localAddressesLoop_error lib _ _ _ ((herr trimmed).mp h).2
    exact ⟨e, he, hbad⟩
  · rintro ⟨e, he, hbad⟩
    cases hloop : localAddressesLoop lib (strings_Split (c.GetString .TxPoolLocals) ',') [] with
    | error trimmed => exact ⟨trimmed, (herr trimmed).mpr ⟨hset, hloop⟩⟩
    | ok out =>
      have := (localAddressesLoop_ok lib _ _ _ hloop).2 e he
      rw [hbad] at this
      cases this
  · intro cfg hcfg
    have h := hok cfg hcfg
    rw [if_pos hset] at h
    have hout := (localAddressesLoop_ok lib _ _ _ h).1
    rw [List.nil_append] at hout
    rw [hout]
    exact ⟨List.length_map _ _, rfl⟩
  · intro hset cfg hcfg
    have h := hok cfg hcfg
    rw [if_neg (by simp [hset])] at h
    exact (Except.ok.inj h).symm

/-- C21 at a command line whose --txpool.locals holds a hex address and the entry "zz". -/
theorem NewConfigFromCliContext_txpool_locals_witness :
    goLib.crypto_ToECDSA (goLib.common_Hex2Bytes
      ((sampleContextLocals true "0x00000000000000000000000000000000000000b1,zz").GetString
        .L1ProposerPrivKey)) = .ok 161 ∧
    (sampleContextLocals true "0x00000000000000000000000000000000000000b1,zz").IsSet
      .TxPoolLocals = true ∧
    ∃ trimmed,
      NewConfigFromCliContext goLib
          (sampleContextLocals true "0x00000000000000000000000000000000000000b1,zz") =
        (none, some (.invalidLocalAccount trimmed)) :=
  ⟨rfl, rfl,
    ((NewConfigFromCliContext_txpool_locals goLib
      (sampleContextLocals true "0x00000000000000000000000000000000000000b1,zz") 161 rfl).1
      rfl).1.mpr ⟨"zz", by decide, by decide⟩⟩

/-- C22 fails on the code: for the accepted value " 0x00000000000000000000000000000000000000b1"
(a leading space) the trimmed entry is a hex address and denotes the address ending in b1,
but the element of LocalAddresses, converted from the untrimmed entry, is the zero
address. -/
theorem LocalAddresses_from_untrimmed_entry :
    goLib.common_IsHexAddress
      (goLib.strings_TrimSpace " 0x00000000000000000000000000000000000000b1") = true ∧
    (NewConfigFromCliContext goLib
        (sampleContextLocals true " 0x00000000000000000000000000000000000000b1")).1.map
      (fun cfg => cfg.LocalAddresses) = some [zeroBytes 20] ∧
    goLib.common_HexToAddress
      (goLib.strings_TrimSpace " 0x00000000000000000000000000000000000000b1") =
      common_BytesToAddress [177] ∧
    common_BytesToAddress [177] ≠ zeroBytes 20 := by
  decide

/-! ## Bloom packing and base fee, both directions -/

/-- C23: bloom packing round-trips in both directions. For every 256-byte bloom `b`,
BytesToBloom(BloomToBytes(b)) returns `b`; and for every [8][32]byte value `s`,
BytesToBloom(s) returns a bloom that BloomToBytes maps back to `s`. -/
theorem Bloom_packing_roundtrip :
    (∀ b : Bloom, BytesToBloom (BloomToBytes b) = some b) ∧
    (∀ s : Arr (Arr Byte 32) 8, ∃ x, BytesToBloom s = some x ∧ BloomToBytes x = s) :=
  ⟨BytesToBloom_BloomToBytes,
    fun s => ⟨_, BytesToBloom_eq s, BloomToBytes_of_BytesToBloom s _ (BytesToBloom_eq s)⟩⟩

/-- C24: FromGethHeader does not distinguish an absent base fee from a zero one. For every
geth header `h` whose BaseFee is a non-nil 0, the header that differs from `h` only in
having a nil BaseFee maps to the same BlockHeader, and the round trip
ToGethHeader(FromGethHeader(h)) returns a header whose BaseFee is nil. -/
theorem FromGethHeader_nil_or_zero_BaseFee (h : Header) (hzero : h.BaseFee = some 0) :
    FromGethHeader { h with BaseFee := none } = FromGethHeader h ∧
    ∃ g, ToGethHeader (FromGethHeader h) = some g ∧ g.BaseFee = none := by
  constructor
  · simp [FromGethHeader, hzero, Big0]
  · have hv := FromGethHeader_BaseFeePerGas h
    rw [hzero] at hv
    exact ⟨_, ToGethHeader_eq _ 0 hv, rfl⟩

/-- C24 at a header with all-zero byte fields and a non-nil base fee 0. -/
theorem FromGethHeader_nil_or_zero_BaseFee_witness :
    (sampleHeader (some 0) (EncodeNonce 258)).BaseFee = some 0 ∧
    FromGethHeader { sampleHeader (some 0) (EncodeNonce 258) with BaseFee := none } =
      FromGethHeader (sampleHeader (some 0) (EncodeNonce 258)) ∧
    ∃ g, ToGethHeader (FromGethHeader (sampleHeader (some 0) (EncodeNonce 258))) = some g ∧
      g.BaseFee = none :=
  ⟨rfl, FromGethHeader_nil_or_zero_BaseFee (sampleHeader (some 0) (EncodeNonce 258)) rfl⟩

/-- C25: ToGethHeader is defined on every BlockHeader whose BaseFeePerGas is non-nil, in
particular on every output of FromGethHeader; the BlockHeaders on which it fails (the
comparison with zero dereferences a nil big integer) are exactly those with a nil
BaseFeePerGas. -/
theorem ToGethHeader_defined_iff :
    (∀ bh : BlockHeader, bh.BaseFeePerGas ≠ none → (ToGethHeader bh).isSome = true) ∧
    (∀ h : Header, (ToGethHeader (FromGethHeader h)).isSome = true) ∧
    (∀ bh : BlockHeader, ToGethHeader bh = none ↔ bh.BaseFeePerGas = none) := by
  have hdef : ∀ bh : BlockHeader, bh.BaseFeePerGas ≠ none → (ToGethHeader bh).isSome = true := by
    intro bh hne
    obtain ⟨v, hv⟩ := Option.ne_none_iff_exists'.mp hne
    rw [ToGethHeader_eq bh v hv]
    rfl
  refine ⟨hdef, ?_, ?_⟩
  · intro h
    apply hdef
    rw [FromGethHeader_BaseFeePerGas]
    simp
  · intro bh
    constructor
    · intro hnone
      by_contra hne
      have := hdef bh hne
      rw [hnone] at this
      cases this
    · intro hnil
      simp [ToGethHeader, hnil, BigInt.Cmp, Big0]

end Taiko
